import Mathlib

/-!
The mathsvg service: tiered formula cache and render orchestration.

A shallow embedding of the Go packages `internal/cache` (the `Manager` that
coordinates the in-process BigCache tier with the optional Redis tier),
`internal/api` (formula validation and the `/render` handler) and
`internal/renderer` (the placeholder renderer), followed by the properties
established about them.

Conventions of the embedding:

* a Go `string` / `[]byte` is the list of its bytes;
* a method with a pointer receiver takes the receiver state and returns the
  new state next to its Go results;
* the two external stores are not part of the repository: the local tier is
  a parameter (class `BigCache`), and each Redis command receives the
  outcome the network produced for it as an argument;
* `atomic.Uint64.Add` is addition modulo `2^64`;
* the zap logger is the list of entries written so far, oldest first.
-/

namespace Mathsvg

/-! ## Basic types -/

/-- A Go `string` or `[]byte`: its sequence of byte values (each in `0..255`).
The conversions `[]byte(s)` and `string(b)` are the identity here. -/
abbrev GoString := List Nat

/-- A Go `error` value, identified by its message. -/
abbrev GoError := String

/-- UTF-8 bytes of a source-code string literal. -/
def utf8 (s : String) : GoString :=
  (s.data.flatMap String.utf8EncodeChar).map UInt8.toNat

/-- Severity of a zap log entry. -/
inductive Level where
  | info
  | warn
  | error
deriving DecidableEq, Repr

/-- One entry written through a `*zap.Logger`: level, message and the
`zap.Error` field when there is one. -/
structure LogEntry where
  level : Level
  msg : String
  err : Option GoError
deriving DecidableEq, Repr

/-- Go `HitLevel` of `manager.go`: which tier answered a `Get`. -/
inductive HitLevel where
  | HitNone
  | HitLocal
  | HitRedis
deriving DecidableEq, Repr

/-! ## The two tiers -/

/-- Result of `(*bigcache.BigCache).Get`: the entry, `ErrEntryNotFound`, or
any other error. -/
inductive CacheGet where
  | ok (data : GoString)
  | notFound
  | fault (e : GoError)
deriving DecidableEq, Repr

/-- The operations of `*bigcache.BigCache` that the Manager uses, over a
state `σ` of the cache. `Set` returns the new state and the error, if any. -/
class BigCache (σ : Type) where
  Get : σ → GoString → CacheGet
  Set : σ → GoString → GoString → σ × Option GoError
  Len : σ → Nat
  Close : σ → Option GoError

/-- A local tier that returns what it accepted: after a `Set` that reported
no error, `Get` of the same key yields the stored bytes. -/
def BigCache.Retains (σ : Type) [BigCache σ] : Prop :=
  ∀ (c : σ) (key data : GoString),
    (BigCache.Set c key data).2 = none →
      BigCache.Get (BigCache.Set c key data).1 key = CacheGet.ok data

/-- Outcome of `m.redis.Get(ctx, key).Result()`: a value with a nil error,
the error `redis.Nil` (key absent), or any other error. -/
inductive RedisReply where
  | value (v : GoString)
  | nil
  | fault (e : GoError)
deriving DecidableEq, Repr

/-- A command sent to the Redis server. -/
inductive RedisOp where
  | ping
  | get (key : GoString)
  | set (key value : GoString) (ttl : Nat)
  | close
deriving DecidableEq, Repr

/-- A `*redis.Client` that is not nil. -/
inductive RedisClient where
  | conn
deriving DecidableEq, Repr

/-! ## `internal/cache`: the Manager -/

/-- The `Manager` struct. `redis = none` is the nil client, `logger` holds
the entries written through `m.logger`, and `redisOps` records the commands
this Manager has sent to Redis (instrumentation, not a Go field). -/
structure Manager (σ : Type) where
  localCache : σ
  redis : Option RedisClient
  redisEnabled : Bool
  redisTTL : Nat
  logger : List LogEntry
  hitsLocal : Nat
  hitsRedis : Nat
  misses : Nat
  redisAlive : Bool
  redisOps : List RedisOp

/-- The `Stats` struct. -/
structure Stats where
  LocalEntries : Nat
  HitsLocal : Nat
  HitsRedis : Nat
  Misses : Nat
  RedisEnabled : Bool
  RedisAlive : Bool
deriving DecidableEq, Repr

/-- The `cache.*` fields of the configuration that `NewManager` branches on
or stores (the others are handed to the two client libraries unchanged). -/
structure Cache where
  RedisEnabled : Bool
  RedisTTL : Nat
deriving DecidableEq, Repr

/-- Go `atomic.Uint64.Add`: addition modulo `2^64`. -/
def u64Add (x d : Nat) : Nat := (x + d) % 2 ^ 64

/-- Call `m.logger.Info(msg)`. -/
def Manager.Info {σ : Type} (m : Manager σ) (msg : String) : Manager σ :=
  { m with logger := m.logger ++ [⟨Level.info, msg, none⟩] }

/-- Call `m.logger.Warn(msg)`. -/
def Manager.Warn {σ : Type} (m : Manager σ) (msg : String) : Manager σ :=
  { m with logger := m.logger ++ [⟨Level.warn, msg, none⟩] }

/-- Call `m.logger.Warn(msg, zap.Error(err))`. -/
def Manager.WarnErr {σ : Type} (m : Manager σ) (msg : String) (e : GoError) : Manager σ :=
  { m with logger := m.logger ++ [⟨Level.warn, msg, some e⟩] }

/-- The idiom `if err != nil { m.logger.Warn(msg, zap.Error(err)) }`. -/
def Manager.WarnIf {σ : Type} (m : Manager σ) (msg : String) : Option GoError → Manager σ
  | some e => m.WarnErr msg e
  | none => m

/-- The entry `markRedisAlive` writes when the flag goes from dead to alive. -/
def aliveLog : LogEntry := ⟨Level.info, "Redis 恢复可用", none⟩

/-- The entry `markRedisAlive` writes when the flag goes from alive to dead. -/
def deadLog : LogEntry := ⟨Level.warn, "Redis 不可用，降级为仅 BigCache", none⟩

/-- Whether a log entry is one of the two health-transition entries. -/
def isTransition (e : LogEntry) : Bool := e == aliveLog || e == deadLog

/-- Go `(*Manager).markRedisAlive` of `stats.go`. -/
def Manager.markRedisAlive {σ : Type} (m : Manager σ) (alive : Bool) : Manager σ :=
  if !m.redisEnabled then
    { m with redisAlive := false }
  else
    let prev := m.redisAlive
    if alive then
      let m1 := { m with redisAlive := true }
      if !prev then m1.Info "Redis 恢复可用" else m1
    else
      let m1 := { m with redisAlive := false }
      if prev then m1.Warn "Redis 不可用，降级为仅 BigCache" else m1

/-- Go `(*Manager).Stats` of `stats.go`. -/
def Manager.Stats {σ : Type} [BigCache σ] (m : Manager σ) : Stats :=
  { LocalEntries := BigCache.Len m.localCache
    HitsLocal := m.hitsLocal
    HitsRedis := m.hitsRedis
    Misses := m.misses
    RedisEnabled := m.redisEnabled
    RedisAlive := m.redisAlive }

/-- Go `(*Manager).Get` of `manager.go`. `reply` is the outcome of
`m.redis.Get(ctx, key).Result()`; it is looked at only when that call is
made. Returns the new state, the value and the hit level. -/
def Manager.Get {σ : Type} [BigCache σ] (m : Manager σ) (key : GoString)
    (reply : RedisReply) : Manager σ × GoString × HitLevel :=
  match BigCache.Get m.localCache key with
  | CacheGet.ok data =>
    ({ m with hitsLocal := u64Add m.hitsLocal 1 }, data, HitLevel.HitLocal)
  | r =>
    let m1 :=
      match r with
      | CacheGet.fault e => m.WarnErr "BigCache 读取失败" e
      | _ => m
    if !m1.redisEnabled || m1.redis.isNone then
      ({ m1 with misses := u64Add m1.misses 1 }, [], HitLevel.HitNone)
    else
      let m2 := { m1 with redisOps := m1.redisOps ++ [RedisOp.get key] }
      match reply with
      | RedisReply.value value =>
        let m3 := { m2 with hitsRedis := u64Add m2.hitsRedis 1 }
        let m4 := m3.markRedisAlive true
        let w := BigCache.Set m4.localCache key value
        let m5 := { m4 with localCache := w.1 }
        let m6 := m5.WarnIf "Redis 回填 BigCache 失败" w.2
        (m6, value, HitLevel.HitRedis)
      | RedisReply.nil =>
        ({ m2 with misses := u64Add m2.misses 1 }, [], HitLevel.HitNone)
      | RedisReply.fault e =>
        let m3 := m2.WarnErr "Redis 读取失败" e
        let m4 := m3.markRedisAlive false
        ({ m4 with misses := u64Add m4.misses 1 }, [], HitLevel.HitNone)

/-- The work handed to the goroutine that `Set` starts: one Redis `SET`. -/
structure RedisWrite where
  key : GoString
  value : GoString
deriving DecidableEq, Repr

/-- Go `(*Manager).Set` of `manager.go`, up to the `go` statement. Returns the
new state and the goroutine it started, if any. -/
def Manager.Set {σ : Type} [BigCache σ] (m : Manager σ) (key value : GoString) :
    Manager σ × Option RedisWrite :=
  let w := BigCache.Set m.localCache key value
  let m1 := { m with localCache := w.1 }
  let m2 := m1.WarnIf "BigCache 写入失败" w.2
  if !m2.redisEnabled || m2.redis.isNone then
    (m2, none)
  else
    (m2, some ⟨key, value⟩)

/-- Body of the goroutine started by `Set`. `outcome` is the error of
`m.redis.Set(childCtx, key, value, m.redisTTL).Err()`, `none` for success. -/
def Manager.redisWrite {σ : Type} (m : Manager σ) (w : RedisWrite)
    (outcome : Option GoError) : Manager σ :=
  let m1 := { m with redisOps := m.redisOps ++ [RedisOp.set w.key w.value m.redisTTL] }
  match outcome with
  | some e => (m1.WarnErr "Redis 写入失败" e).markRedisAlive false
  | none => m1.markRedisAlive true

/-- Go `(*Manager).Close` of `manager.go`. `redisClose` is the error of
`m.redis.Close()`, `none` for success (looked at only when that call is
made). Returns the new state and the error result. The guard
`m.local != nil` always holds here, `localCache` not being a pointer. -/
def Manager.Close {σ : Type} [BigCache σ] (m : Manager σ) (redisClose : Option GoError) :
    Manager σ × Option GoError :=
  let m1 := m.WarnIf "BigCache 关闭失败" (BigCache.Close m.localCache)
  if m1.redisEnabled && m1.redis.isSome then
    let m2 := { m1 with redisOps := m1.redisOps ++ [RedisOp.close] }
    match redisClose with
    | some err => (m2.WarnErr "Redis 关闭失败" err, some err)
    | none => (m2, none)
  else
    (m1, none)

/-- The state in which `Get` goes on after the local tier did not return an
entry: an error other than `ErrEntryNotFound` has been logged. -/
def afterLocalMiss {σ : Type} (m : Manager σ) : CacheGet → Manager σ
  | CacheGet.fault e => m.WarnErr "BigCache 读取失败" e
  | _ => m

/-- The entries `markRedisAlive` writes: one when the remote tier is enabled
and the flag changes, none otherwise. -/
def healthLog {σ : Type} (m : Manager σ) (a : Bool) : List LogEntry :=
  if m.redisEnabled && (m.redisAlive != a) then [if a then aliveLog else deadLog] else []

/-- Feeds a sequence of remote outcomes (`true` for a success) to
`markRedisAlive`, one call per outcome. -/
def Manager.markAll {σ : Type} (m : Manager σ) (outs : List Bool) : Manager σ :=
  outs.foldl Manager.markRedisAlive m

/-- The transition events a sequence of outcomes calls for, starting from
the flag value `prev`: one entry for each outcome that differs from the flag
before it, `aliveLog` for a success and `deadLog` for a failure. -/
def transitionLog : Bool → List Bool → List LogEntry
  | _, [] => []
  | prev, a :: rest =>
    (if prev = a then [] else [if a then aliveLog else deadLog]) ++ transitionLog a rest

/-- Go `NewManager` of `manager.go`. `logger` is the logger passed in,
`newCache` the result of `bigcache.NewBigCache`, and `ping` the error of the
start-up `Ping`, `none` for success (looked at only when Redis is enabled). -/
def NewManager {σ : Type} (cfg : Cache) (logger : List LogEntry)
    (newCache : Except GoError σ) (ping : Option GoError) : Except GoError (Manager σ) :=
  match newCache with
  | Except.error err => Except.error err
  | Except.ok c =>
    let manager : Manager σ :=
      { localCache := c
        redis := none
        redisEnabled := cfg.RedisEnabled
        redisTTL := cfg.RedisTTL
        logger := logger
        hitsLocal := 0
        hitsRedis := 0
        misses := 0
        redisAlive := false
        redisOps := [] }
    if cfg.RedisEnabled then
      let m1 := { manager with redis := some RedisClient.conn,
                               redisOps := manager.redisOps ++ [RedisOp.ping] }
      match ping with
      | some err =>
        let m2 := m1.WarnErr "Redis 无法连接，降级为仅 BigCache" err
        let m3 := { m2 with redisOps := m2.redisOps ++ [RedisOp.close] }
        let m4 := { m3 with redis := none }
        let m5 := { m4 with redisEnabled := false }
        Except.ok (m5.markRedisAlive false)
      | none => Except.ok (m1.markRedisAlive true)
    else
      Except.ok (manager.markRedisAlive false)

/-! ## Sequences of calls on one Manager -/

/-- A Manager together with the goroutines started by `Set` that have not
run yet. -/
structure System (σ : Type) where
  mgr : Manager σ
  pending : List RedisWrite

/-- One step of a run: a `Get` call (with the reply Redis would give), a
`Set` call, or the scheduler running the `i`-th pending goroutine (with the
outcome of its Redis write). -/
inductive Call where
  | get (key : GoString) (reply : RedisReply)
  | set (key value : GoString)
  | async (i : Nat) (outcome : Option GoError)
deriving DecidableEq, Repr

/-- Performs one step. The second component is the result of the call when
it is a `Get`. -/
def System.step {σ : Type} [BigCache σ] (s : System σ) :
    Call → System σ × Option (GoString × HitLevel)
  | Call.get key reply =>
    let r := s.mgr.Get key reply
    ({ s with mgr := r.1 }, some r.2)
  | Call.set key value =>
    let r := s.mgr.Set key value
    ({ mgr := r.1, pending := s.pending ++ r.2.toList }, none)
  | Call.async i outcome =>
    match s.pending.get? i with
    | some w => ({ mgr := s.mgr.redisWrite w outcome, pending := s.pending.eraseIdx i }, none)
    | none => (s, none)

/-- The same step with what the network would have answered blanked out. -/
def Call.forgetRemote : Call → Call
  | Call.get key _ => Call.get key RedisReply.nil
  | Call.set key value => Call.set key value
  | Call.async i _ => Call.async i none

/-- Performs the calls in order, collecting the result of each. -/
def System.run {σ : Type} [BigCache σ] (s : System σ) :
    List Call → System σ × List (Option (GoString × HitLevel))
  | [] => (s, [])
  | c :: cs =>
    let r := s.step c
    let rest := System.run r.1 cs
    (rest.1, r.2 :: rest.2)

/-- The three counters of a Manager: local hits, remote hits, misses. -/
def Manager.counters {σ : Type} (m : Manager σ) : Nat × Nat × Nat :=
  (m.hitsLocal, m.hitsRedis, m.misses)

/-- Adds one (modulo `2^64`) to the counter that belongs to a hit level. -/
def bump : HitLevel → Nat × Nat × Nat → Nat × Nat × Nat
  | HitLevel.HitLocal, (l, r, n) => (u64Add l 1, r, n)
  | HitLevel.HitRedis, (l, r, n) => (l, u64Add r 1, n)
  | HitLevel.HitNone, (l, r, n) => (l, r, u64Add n 1)

/-- Number of `Get` results in a run with the given hit level. -/
def hitCount (lvl : HitLevel) (results : List (Option (GoString × HitLevel))) : Nat :=
  results.countP (fun r => r.map Prod.snd == some lvl)

/-- Number of `Get` calls in a sequence of steps. -/
def getCount (calls : List Call) : Nat :=
  calls.countP (fun c => match c with
    | Call.get _ _ => true
    | _ => false)

/-! ## Go standard library: runes and white space -/

/-- Go `utf8.RuneError`, the rune produced for every invalid byte. -/
def RuneError : Nat := 0xFFFD

/-- The multi-byte part of `utf8.DecodeRuneInString`: `s0` is the leading
byte, `sz` the width it announces, `lo..hi` the range accepted for the
second byte, `rest` the bytes after `s0`. -/
def decodeMulti (s0 sz lo hi : Nat) (rest : GoString) : Nat × Nat :=
  if rest.length + 1 < sz then (RuneError, 1)
  else
    let s1 := rest.getD 0 0
    if s1 < lo ∨ hi < s1 then (RuneError, 1)
    else if sz ≤ 2 then ((s0 % 32) * 64 + s1 % 64, 2)
    else
      let s2 := rest.getD 1 0
      if s2 < 0x80 ∨ 0xBF < s2 then (RuneError, 1)
      else if sz ≤ 3 then ((s0 % 16) * 4096 + (s1 % 64) * 64 + s2 % 64, 3)
      else
        let s3 := rest.getD 2 0
        if s3 < 0x80 ∨ 0xBF < s3 then (RuneError, 1)
        else ((s0 % 8) * 262144 + (s1 % 64) * 4096 + (s2 % 64) * 64 + s3 % 64, 4)

/-- Go `utf8.DecodeRuneInString`: the first rune of `s` and its width in bytes.
An invalid or truncated encoding yields `(RuneError, 1)`, the empty string
`(RuneError, 0)`. -/
def DecodeRune (s : GoString) : Nat × Nat :=
  match s with
  | [] => (RuneError, 0)
  | s0 :: rest =>
    if s0 < 0x80 then (s0, 1)
    else if s0 < 0xC2 ∨ 0xF4 < s0 then (RuneError, 1)
    else
      decodeMulti s0
        (if s0 < 0xE0 then 2 else if s0 < 0xF0 then 3 else 4)
        (if s0 = 0xE0 then 0xA0 else if s0 = 0xF0 then 0x90 else 0x80)
        (if s0 = 0xED then 0x9F else if s0 = 0xF4 then 0x8F else 0xBF)
        rest

/-- The runes of `s` in order, each with the bytes it was decoded from, as a
`for _, r := range s` loop visits them. The fuel is the byte length, which
is enough because every step consumes at least one byte. -/
def decodeAux : Nat → GoString → List (Nat × GoString)
  | 0, _ => []
  | fuel + 1, s =>
    match s with
    | [] => []
    | _ :: _ =>
      let d := DecodeRune s
      (d.1, s.take d.2) :: decodeAux fuel (s.drop d.2)

/-- The runes of a string with their encodings. -/
def decode (s : GoString) : List (Nat × GoString) := decodeAux s.length s

/-- The runes of a string: `[]rune(s)`. -/
def runes (s : GoString) : List Nat := (decode s).map Prod.fst

/-- Go `unicode.IsSpace`: the code points with the Unicode White_Space
property. -/
def IsSpace (r : Nat) : Bool :=
  (9 ≤ r && r ≤ 13) || r == 0x20 || r == 0x85 || r == 0xA0 || r == 0x1680 ||
  (0x2000 ≤ r && r ≤ 0x200A) || r == 0x2028 || r == 0x2029 || r == 0x202F ||
  r == 0x205F || r == 0x3000

/-- Go `strings.TrimSpace`: `s` without its leading and trailing white-space
runes. -/
def TrimSpace (s : GoString) : GoString :=
  let front := (decode s).dropWhile (fun p => IsSpace p.1)
  let kept := (front.reverse.dropWhile (fun p => IsSpace p.1)).reverse
  kept.flatMap Prod.snd

/-- Go `hex.EncodeToString`: two lower-case hexadecimal digits per byte. -/
def EncodeToString (src : GoString) : GoString :=
  let hextable := utf8 "0123456789abcdef"
  src.flatMap (fun b => [hextable.getD (b / 16 % 16) 0, hextable.getD (b % 16) 0])

/-! ## `internal/api`: validation -/

/-- Go `maxFormulaBytes` of `validation.go`. -/
def maxFormulaBytes : Nat := 5 * 1024

/-- The three sentinel errors of `validation.go`. -/
inductive FormulaError where
  | ErrEmptyFormula
  | ErrFormulaTooLarge
  | ErrInvalidCharacters
deriving DecidableEq, Repr

/-- The message of a sentinel error. -/
def FormulaError.Error : FormulaError → GoError
  | FormulaError.ErrEmptyFormula => "公式内容为空"
  | FormulaError.ErrFormulaTooLarge => "公式内容超过 5KB 限制"
  | FormulaError.ErrInvalidCharacters => "公式包含非法控制字符"

/-- The loop of `containsInvalidControl` over the runes still to visit. -/
def containsInvalidControlLoop : List Nat → Bool
  | [] => false
  | r :: rs =>
    if r = 10 ∨ r = 13 ∨ r = 9 then containsInvalidControlLoop rs
    else if r < 0x20 ∨ r = 0x7f then true
    else containsInvalidControlLoop rs

/-- Go `containsInvalidControl` of `validation.go`. -/
def containsInvalidControl (s : GoString) : Bool :=
  containsInvalidControlLoop (runes s)

/-- Go `validateFormula` of `validation.go`: the pair `(string, error)`. -/
def validateFormula (raw : GoString) : GoString × Option FormulaError :=
  let trimmed := TrimSpace raw
  if trimmed = [] then
    ([], some FormulaError.ErrEmptyFormula)
  else if trimmed.length > maxFormulaBytes then
    ([], some FormulaError.ErrFormulaTooLarge)
  else if containsInvalidControl trimmed then
    ([], some FormulaError.ErrInvalidCharacters)
  else
    (trimmed, none)

/-! ## `internal/api`: the render handler -/

/-- Go `responseContentType` of `render.go`. -/
def responseContentType : String := "image/svg+xml; charset=utf-8"

/-- Go `errorSVG` of `render.go`. -/
def errorSVG : GoString :=
  utf8 "<svg xmlns=\"http://www.w3.org/2000/svg\" viewBox=\"0 0 320 80\"><rect width=\"100%\" height=\"100%\" fill=\"#fef2f2\"/><text x=\"20\" y=\"45\" font-size=\"20\" font-family=\"sans-serif\" fill=\"#b91c1c\">公式渲染失败，请检查输入</text></svg>"

/-- Go `hashFormula` of `render.go`; `Sum256` is `sha256.Sum256`. -/
def hashFormula (Sum256 : GoString → GoString) (tex : GoString) : GoString :=
  EncodeToString (Sum256 tex)

/-- Go `classifyInputError` of `render.go`: the HTTP status for a validation
error. -/
def classifyInputError : FormulaError → Nat
  | FormulaError.ErrFormulaTooLarge => 413
  | FormulaError.ErrInvalidCharacters => 400
  | FormulaError.ErrEmptyFormula => 400

/-- The `RenderHandler` struct. `renderer` is the `Render` method of the
`renderer.Renderer` it holds, returning the pair `(string, error)`; `logger`
holds the entries written through `h.logger`. -/
structure RenderHandler (σ : Type) where
  cache : Manager σ
  renderer : GoString → GoString × Option GoError
  logger : List LogEntry
  requestTimeout : Nat

/-- What `handleRender` sends back: status code, `Content-Type` header and
body. -/
structure Response where
  status : Nat
  contentType : String
  body : GoString
deriving DecidableEq, Repr

/-- A call `handleRender` makes on its two collaborators. -/
inductive Effect where
  | cacheGet (key : GoString)
  | render (tex : GoString)
  | cacheSet (key value : GoString)
deriving DecidableEq, Repr

/-- Outcome of one `handleRender` call: the handler afterwards, the
response, the goroutine started by `cache.Set` if any, and the calls made on
the cache and the renderer, in order (instrumentation). -/
structure RenderResult (σ : Type) where
  handler : RenderHandler σ
  response : Response
  started : Option RedisWrite
  calls : List Effect

/-- Go `(*RenderHandler).handleRender` of `render.go`. `tex` is the query
parameter, `reply` what Redis answers if `cache.Get` asks it. Timings and the
request id only feed log fields and are left out. -/
def RenderHandler.handleRender {σ : Type} [BigCache σ] (Sum256 : GoString → GoString)
    (h : RenderHandler σ) (tex : GoString) (reply : RedisReply) : RenderResult σ :=
  let v := validateFormula tex
  match v.2 with
  | some err =>
    let status := classifyInputError err
    { handler := { h with logger := h.logger ++ [⟨Level.warn, "公式输入不合法", some err.Error⟩] }
      response := ⟨status, responseContentType, errorSVG⟩
      started := none
      calls := [] }
  | none =>
    let normalized := v.1
    let cacheKey := hashFormula Sum256 normalized
    let g := h.cache.Get cacheKey reply
    let svg := g.2.1
    let hitLevel := g.2.2
    if hitLevel = HitLevel.HitNone then
      let out := h.renderer normalized
      match out.2 with
      | some err =>
        { handler := { h with cache := g.1,
                              logger := h.logger ++ [⟨Level.error, "渲染失败", some err⟩] }
          response := ⟨422, responseContentType, errorSVG⟩
          started := none
          calls := [Effect.cacheGet cacheKey, Effect.render normalized] }
      | none =>
        let st := g.1.Set cacheKey out.1
        { handler := { h with cache := st.1,
                              logger := h.logger ++ [⟨Level.info, "公式渲染完成", none⟩] }
          response := ⟨200, responseContentType, out.1⟩
          started := st.2
          calls := [Effect.cacheGet cacheKey, Effect.render normalized,
                    Effect.cacheSet cacheKey out.1] }
    else
      { handler := { h with cache := g.1,
                            logger := h.logger ++ [⟨Level.info, "公式渲染完成", none⟩] }
        response := ⟨200, responseContentType, svg⟩
        started := none
        calls := [Effect.cacheGet cacheKey] }

/-! ## Go standard library: formatting and HTML escaping -/

/-- Go `int` on a 64-bit platform: the value wrapped into
`-2^63 .. 2^63 - 1`. -/
def int64 (x : Int) : Int := (x + 2 ^ 63) % 2 ^ 64 - 2 ^ 63

/-- The verb `%d` of `fmt`: the decimal digits of an integer, with a leading
minus sign when it is negative. -/
def itoa (n : Int) : GoString := utf8 (toString n)

/-- An operand of `fmt.Sprintf`. -/
inductive Arg where
  | str (s : GoString)
  | int (n : Int)
deriving DecidableEq, Repr

/-- The scan of `fmt.Sprintf` over the format, for the verbs this repository
uses; `verb` tells that the byte before was a `%`. `%s` takes a string
operand, `%d` an integer operand, `%%` stands for a percent sign; every
other byte of the format is copied. -/
def sprintfLoop : Bool → GoString → List Arg → GoString
  | false, [], _ => []
  | true, [], _ => [37]
  | false, b :: rest, args =>
    if b = 37 then sprintfLoop true rest args else b :: sprintfLoop false rest args
  | true, c :: rest, args =>
    if c = 37 then 37 :: sprintfLoop false rest args
    else
      match args with
      | Arg.str s :: args2 =>
        if c = 115 then s ++ sprintfLoop false rest args2
        else 37 :: c :: sprintfLoop false rest args
      | Arg.int n :: args2 =>
        if c = 100 then itoa n ++ sprintfLoop false rest args2
        else 37 :: c :: sprintfLoop false rest args
      | [] => 37 :: c :: sprintfLoop false rest args

/-- Go `fmt.Sprintf`, for the verbs `%s`, `%d` and `%%`. -/
def Sprintf (format : GoString) (args : List Arg) : GoString :=
  sprintfLoop false format args

/-- Go `html.EscapeString`: the five bytes `&`, `'`, `<`, `>` and `"` are
replaced by their entities, every other byte is kept. -/
def EscapeString (s : GoString) : GoString :=
  s.flatMap (fun b =>
    if b = 38 then utf8 "&amp;"
    else if b = 39 then utf8 "&#39;"
    else if b = 60 then utf8 "&lt;"
    else if b = 62 then utf8 "&gt;"
    else if b = 34 then utf8 "&#34;"
    else [b])

/-! ## `internal/renderer`: the placeholder renderer -/

/-- The `Stub` struct of `stub.go`. -/
structure Stub where
  defaultWidth : Int
  defaultHeight : Int
deriving DecidableEq, Repr

/-- Go `NewStub` of `stub.go`. -/
def NewStub : Stub := { defaultWidth := 400, defaultHeight := 80 }

/-- The format string of the SVG in `Stub.Render`. -/
def stubFormat : GoString :=
  utf8 "<svg xmlns=\"http://www.w3.org/2000/svg\" viewBox=\"%s\" preserveAspectRatio=\"xMinYMin meet\"><rect width=\"100%%\" height=\"100%%\" fill=\"#f8fafc\"/><text x=\"20\" y=\"%d\" font-size=\"20\" font-family=\"monospace\" fill=\"#0f172a\">%s</text><text x=\"20\" y=\"%d\" font-size=\"14\" font-family=\"monospace\" fill=\"#64748b\">Rust 渲染引擎开发中，当前为占位结果</text></svg>"

/-- The notice the placeholder SVG carries. -/
def placeholderNotice : GoString := utf8 "Rust 渲染引擎开发中，当前为占位结果"

/-- Go `(*Stub).Render` of `stub.go`: the pair `(string, error)`. -/
def Stub.Render (s : Stub) (tex : GoString) : GoString × Option GoError :=
  let trimmed := TrimSpace tex
  if trimmed = [] then
    ([], some "公式内容为空")
  else
    let escaped := EscapeString trimmed
    let width := int64 (s.defaultWidth + int64 ((runes trimmed).length * 6))
    let height := s.defaultHeight
    let viewBox := Sprintf (utf8 "0 0 %d %d") [Arg.int width, Arg.int height]
    (Sprintf stubFormat
      [Arg.str viewBox, Arg.int (height.tdiv 2), Arg.str escaped,
       Arg.int (int64 (height.tdiv 2 + 24))], none)

/-! ## A concrete local tier -/

/-- Modelled from the spec: the Local Tier of §4.2 (the BigCache library is
not part of the repository). A key-value store in which `set` of a value
above the per-entry maximum `maxEntry` is rejected with an error, and `get`
of a missing key reports absence. -/
structure MemCache where
  entries : List (GoString × GoString)
  maxEntry : Nat
deriving DecidableEq, Repr

/-- Operation `get` of the Local Tier. -/
def MemCache.get (c : MemCache) (key : GoString) : CacheGet :=
  match c.entries.lookup key with
  | some data => CacheGet.ok data
  | none => CacheGet.notFound

/-- Operation `set` of the Local Tier: overwrite semantics, oversized values
rejected. -/
def MemCache.set (c : MemCache) (key data : GoString) : MemCache × Option GoError :=
  if c.maxEntry < data.length then
    (c, some "entry is bigger than max shard size")
  else
    ({ c with entries := (key, data) :: c.entries.filter (fun p => p.1 != key) }, none)

instance : BigCache MemCache where
  Get := MemCache.get
  Set := MemCache.set
  Len := fun c => c.entries.length
  Close := fun _ => none

/-- An empty local tier with the given per-entry maximum. -/
def MemCache.empty (maxEntry : Nat) : MemCache := ⟨[], maxEntry⟩

/-- A Manager as `NewManager` builds it around an empty `MemCache`, with the
remote tier disabled. -/
def localOnly (maxEntry : Nat) : Manager MemCache :=
  { localCache := MemCache.empty maxEntry
    redis := none
    redisEnabled := false
    redisTTL := 0
    logger := []
    hitsLocal := 0
    hitsRedis := 0
    misses := 0
    redisAlive := false
    redisOps := [] }

/-- A Manager as `NewManager` builds it around an empty `MemCache`, with the
remote tier enabled and the start-up ping answered. -/
def withRedis (maxEntry : Nat) : Manager MemCache :=
  { localCache := MemCache.empty maxEntry
    redis := some RedisClient.conn
    redisEnabled := true
    redisTTL := 604800
    logger := [aliveLog]
    hitsLocal := 0
    hitsRedis := 0
    misses := 0
    redisAlive := true
    redisOps := [RedisOp.ping] }

/-- A 2000-byte artifact: the letter `a`, 2000 times. -/
def largeSVG : GoString := List.replicate 2000 97

/-- Stand-in for `sha256.Sum256` in the worked instances. -/
def sampleSum256 : GoString → GoString := fun t => t

/-- A handler over a Manager without Redis, with a renderer that wraps the
formula in an `svg` element and fails on the formula `\\oops`. -/
def sampleHandler : RenderHandler MemCache :=
  { cache := localOnly 1024
    renderer := fun t =>
      if t = utf8 "\\oops" then ([], some "parse error")
      else (utf8 "<svg>" ++ t ++ utf8 "</svg>", none)
    logger := []
    requestTimeout := 3 }

/-- Modelled from the spec: a Local Tier (§4.2) whose `close` fails. -/
structure StuckCache where
  inner : MemCache
deriving DecidableEq, Repr

instance : BigCache StuckCache where
  Get := fun c key => c.inner.get key
  Set := fun c key data => (⟨(c.inner.set key data).1⟩, (c.inner.set key data).2)
  Len := fun c => c.inner.entries.length
  Close := fun _ => some "close failed"

/-- A Manager with the remote tier enabled over a local tier whose `close`
fails. -/
def stuckManager : Manager StuckCache :=
  { localCache := ⟨MemCache.empty 1024⟩
    redis := some RedisClient.conn
    redisEnabled := true
    redisTTL := 604800
    logger := [aliveLog]
    hitsLocal := 0
    hitsRedis := 0
    misses := 0
    redisAlive := true
    redisOps := [RedisOp.ping] }

/-! # Properties -/

/-! ## The concrete local tier -/

/-- The concrete local tier returns what it accepted. -/
theorem MemCache.retains : BigCache.Retains MemCache := by
  intro c key data h
  have h' : (MemCache.set c key data).2 = none := h
  show MemCache.get (MemCache.set c key data).1 key = CacheGet.ok data
  unfold MemCache.set at h' ⊢
  by_cases hlt : c.maxEntry < data.length
  · simp [hlt] at h'
  · simp [hlt, MemCache.get, List.lookup]

/-- The concrete local tier rejects a value above its per-entry maximum and
stays as it was. -/
theorem MemCache.set_rejects (c : MemCache) (key data : GoString)
    (h : c.maxEntry < data.length) :
    BigCache.Set c key data = (c, some "entry is bigger than max shard size") := by
  show MemCache.set c key data = _
  simp [MemCache.set, h]

theorem largeSVG_length : largeSVG.length = 2000 := List.length_replicate _ _

/-! ## How each operation changes the Manager -/

theorem markRedisAlive_eq {σ : Type} (m : Manager σ) (a : Bool) :
    m.markRedisAlive a =
      { m with redisAlive := m.redisEnabled && a, logger := m.logger ++ healthLog m a } := by
  cases h1 : m.redisEnabled <;> cases a <;> cases h2 : m.redisAlive <;>
    simp [Manager.markRedisAlive, Manager.Info, Manager.Warn, healthLog, h1, h2, aliveLog, deadLog]

theorem warnIf_eq {σ : Type} (m : Manager σ) (msg : String) (err : Option GoError) :
    m.WarnIf msg err =
      { m with logger := m.logger ++ (err.map (fun e => ⟨Level.warn, msg, some e⟩)).toList } := by
  cases err <;> simp [Manager.WarnIf, Manager.WarnErr]

theorem afterLocalMiss_eq {σ : Type} (m : Manager σ) (r : CacheGet) :
    afterLocalMiss m r =
      { m with logger := m.logger ++
          (match r with
           | CacheGet.fault e => [⟨Level.warn, "BigCache 读取失败", some e⟩]
           | _ => []) } := by
  cases r <;> simp [afterLocalMiss, Manager.WarnErr]

theorem get_of_local_hit {σ : Type} [BigCache σ] (m : Manager σ) (key data : GoString)
    (reply : RedisReply) (h : BigCache.Get m.localCache key = CacheGet.ok data) :
    m.Get key reply = ({ m with hitsLocal := u64Add m.hitsLocal 1 }, data, HitLevel.HitLocal) := by
  unfold Manager.Get
  rw [h]

/-- The entry `Get` logs when the local tier fails with an error other than
`ErrEntryNotFound`. -/
theorem afterLocalMiss_logger {σ : Type} (m : Manager σ) (r : CacheGet) :
    ∃ extra, (afterLocalMiss m r).logger = m.logger ++ extra ∧
      ∀ e ∈ extra, isTransition e = false := by
  cases r with
  | ok d => exact ⟨[], by simp [afterLocalMiss], by simp⟩
  | notFound => exact ⟨[], by simp [afterLocalMiss], by simp⟩
  | fault e =>
    refine ⟨[⟨Level.warn, "BigCache 读取失败", some e⟩],
      by simp [afterLocalMiss, Manager.WarnErr], ?_⟩
    intro x hx
    simp only [List.mem_singleton] at hx
    subst hx
    simp [isTransition, aliveLog, deadLog]

theorem get_of_local_miss {σ : Type} [BigCache σ] (m : Manager σ) (key : GoString)
    (reply : RedisReply) (h : ∀ data, BigCache.Get m.localCache key ≠ CacheGet.ok data) :
    m.Get key reply =
      (let m1 := afterLocalMiss m (BigCache.Get m.localCache key)
       if !m1.redisEnabled || m1.redis.isNone then
        ({ m1 with misses := u64Add m1.misses 1 }, [], HitLevel.HitNone)
       else
        let m2 := { m1 with redisOps := m1.redisOps ++ [RedisOp.get key] }
        match reply with
        | RedisReply.value value =>
          let m4 := { m2 with hitsRedis := u64Add m2.hitsRedis 1 }.markRedisAlive true
          let w := BigCache.Set m4.localCache key value
          (({ m4 with localCache := w.1 }).WarnIf "Redis 回填 BigCache 失败" w.2,
            value, HitLevel.HitRedis)
        | RedisReply.nil =>
          ({ m2 with misses := u64Add m2.misses 1 }, [], HitLevel.HitNone)
        | RedisReply.fault e =>
          let m4 := (m2.WarnErr "Redis 读取失败" e).markRedisAlive false
          ({ m4 with misses := u64Add m4.misses 1 }, [], HitLevel.HitNone)) := by
  unfold Manager.Get
  cases hg : BigCache.Get m.localCache key with
  | ok data => exact absurd hg (h data)
  | notFound => rfl
  | fault e => rfl

/-- Result of `Get` after a local miss when Redis is disabled or the client is nil. -/
theorem get_local_only {σ : Type} [BigCache σ] (m : Manager σ) (key : GoString)
    (reply : RedisReply) (h : ∀ data, BigCache.Get m.localCache key ≠ CacheGet.ok data)
    (hoff : (!m.redisEnabled || m.redis.isNone) = true) :
    m.Get key reply =
      ({ afterLocalMiss m (BigCache.Get m.localCache key) with misses := u64Add m.misses 1 },
        [], HitLevel.HitNone) := by
  rw [get_of_local_miss m key reply h]
  have h1 : (!(afterLocalMiss m (BigCache.Get m.localCache key)).redisEnabled ||
      (afterLocalMiss m (BigCache.Get m.localCache key)).redis.isNone) = true := by
    simpa [afterLocalMiss_eq] using hoff
  simp only [h1, if_true]
  simp [afterLocalMiss_eq]

/-- Result of `Get` after a local miss when Redis is enabled and reports `redis.Nil`. -/
theorem get_remote_nil {σ : Type} [BigCache σ] (m : Manager σ) (key : GoString)
    (h : ∀ data, BigCache.Get m.localCache key ≠ CacheGet.ok data)
    (hon : (!m.redisEnabled || m.redis.isNone) = false) :
    m.Get key RedisReply.nil =
      ({ afterLocalMiss m (BigCache.Get m.localCache key) with
          misses := u64Add m.misses 1
          redisOps := m.redisOps ++ [RedisOp.get key] },
        [], HitLevel.HitNone) := by
  rw [get_of_local_miss m key _ h]
  have h1 : (!(afterLocalMiss m (BigCache.Get m.localCache key)).redisEnabled ||
      (afterLocalMiss m (BigCache.Get m.localCache key)).redis.isNone) = false := by
    simpa [afterLocalMiss_eq] using hon
  simp only [h1]
  simp [afterLocalMiss_eq]

/-- Result of `Get` after a local miss when Redis is enabled and the read fails. -/
theorem get_remote_fault {σ : Type} [BigCache σ] (m : Manager σ) (key : GoString)
    (e : GoError) (h : ∀ data, BigCache.Get m.localCache key ≠ CacheGet.ok data)
    (hon : (!m.redisEnabled || m.redis.isNone) = false) :
    m.Get key (RedisReply.fault e) =
      ({ afterLocalMiss m (BigCache.Get m.localCache key) with
          misses := u64Add m.misses 1
          redisOps := m.redisOps ++ [RedisOp.get key]
          redisAlive := false
          logger := (afterLocalMiss m (BigCache.Get m.localCache key)).logger ++
            [⟨Level.warn, "Redis 读取失败", some e⟩] ++ healthLog m false },
        [], HitLevel.HitNone) := by
  rw [get_of_local_miss m key _ h]
  have h1 : (!(afterLocalMiss m (BigCache.Get m.localCache key)).redisEnabled ||
      (afterLocalMiss m (BigCache.Get m.localCache key)).redis.isNone) = false := by
    simpa [afterLocalMiss_eq] using hon
  simp only [h1]
  simp [afterLocalMiss_eq, markRedisAlive_eq, Manager.WarnErr, healthLog]

/-- Result of `Get` after a local miss when Redis is enabled and returns a value. -/
theorem get_remote_value {σ : Type} [BigCache σ] (m : Manager σ) (key v : GoString)
    (h : ∀ data, BigCache.Get m.localCache key ≠ CacheGet.ok data)
    (hon : (!m.redisEnabled || m.redis.isNone) = false) :
    m.Get key (RedisReply.value v) =
      ({ afterLocalMiss m (BigCache.Get m.localCache key) with
          hitsRedis := u64Add m.hitsRedis 1
          redisOps := m.redisOps ++ [RedisOp.get key]
          redisAlive := m.redisEnabled
          localCache := (BigCache.Set m.localCache key v).1
          logger := (afterLocalMiss m (BigCache.Get m.localCache key)).logger ++
            healthLog m true ++
            ((BigCache.Set m.localCache key v).2.map
              (fun e => ⟨Level.warn, "Redis 回填 BigCache 失败", some e⟩)).toList },
        v, HitLevel.HitRedis) := by
  rw [get_of_local_miss m key _ h]
  have h1 : (!(afterLocalMiss m (BigCache.Get m.localCache key)).redisEnabled ||
      (afterLocalMiss m (BigCache.Get m.localCache key)).redis.isNone) = false := by
    simpa [afterLocalMiss_eq] using hon
  simp only [h1]
  simp [afterLocalMiss_eq, markRedisAlive_eq, warnIf_eq, healthLog]

theorem set_eq {σ : Type} [BigCache σ] (m : Manager σ) (key value : GoString) :
    m.Set key value =
      (({ m with localCache := (BigCache.Set m.localCache key value).1 }).WarnIf
          "BigCache 写入失败" (BigCache.Set m.localCache key value).2,
        if !m.redisEnabled || m.redis.isNone then none else some ⟨key, value⟩) := by
  unfold Manager.Set
  simp only [warnIf_eq]
  split_ifs <;> rfl

theorem redisWrite_eq {σ : Type} (m : Manager σ) (w : RedisWrite) (o : Option GoError) :
    m.redisWrite w o =
      { m with
        redisOps := m.redisOps ++ [RedisOp.set w.key w.value m.redisTTL]
        redisAlive := m.redisEnabled && o.isNone
        logger := m.logger ++ (o.map (fun e => ⟨Level.warn, "Redis 写入失败", some e⟩)).toList
          ++ healthLog m o.isNone } := by
  unfold Manager.redisWrite
  cases o <;> simp [markRedisAlive_eq, Manager.WarnErr, healthLog]

/-! ## The sample Managers are what `NewManager` builds -/

theorem NewManager_localOnly (maxEntry : Nat) :
    NewManager ⟨false, 0⟩ [] (Except.ok (MemCache.empty maxEntry)) none
      = Except.ok (localOnly maxEntry) := rfl

theorem NewManager_withRedis (maxEntry : Nat) :
    NewManager ⟨true, 604800⟩ [] (Except.ok (MemCache.empty maxEntry)) none
      = Except.ok (withRedis maxEntry) := rfl

/-- A Manager that `NewManager` returns with the remote tier disabled, by
configuration or after a failed ping, has no client and a dead health
flag. -/
theorem NewManager_disabled {σ : Type} (cfg : Cache) (logger : List LogEntry) (c : σ)
    (ping : Option GoError) (m : Manager σ)
    (h : NewManager cfg logger (Except.ok c) ping = Except.ok m)
    (hoff : m.redisEnabled = false) : m.redis = none ∧ m.redisAlive = false := by
  unfold NewManager at h
  cases hcfg : cfg.RedisEnabled <;> cases ping <;>
    simp [hcfg, markRedisAlive_eq, Manager.WarnErr] at h <;>
    (subst h; simp_all)

/-! ## `Set` then `Get`, misses and remote outcomes -/

theorem set_localCache {σ : Type} [BigCache σ] (m : Manager σ) (key value : GoString) :
    (m.Set key value).1.localCache = (BigCache.Set m.localCache key value).1 := by
  simp [set_eq, warnIf_eq]

theorem enabled_iff {σ : Type} (m : Manager σ) (hen : m.redisEnabled = true)
    (hcl : m.redis ≠ none) : (!m.redisEnabled || m.redis.isNone) = false := by
  cases hr : m.redis with
  | none => exact absurd hr hcl
  | some c => simp [hen]

/-- C1 (amended): when the local tier accepts the write of `value` under
`key` (its `Set` reports no error) and returns what it accepted, `Set`
followed immediately by `Get` of the same key returns `(value, HitLocal)`,
with the remote tier enabled or disabled, whatever Redis would answer, and
whether or not the goroutine started by `Set` has already run. -/
theorem C1_set_then_get_accepted {σ : Type} [BigCache σ] (hret : BigCache.Retains σ)
    (m : Manager σ) (key value : GoString) (reply : RedisReply)
    (hacc : (BigCache.Set m.localCache key value).2 = none) :
    ((m.Set key value).1.Get key reply).2 = (value, HitLevel.HitLocal) ∧
      ∀ (w : RedisWrite) (outcome : Option GoError),
        (((m.Set key value).1.redisWrite w outcome).Get key reply).2
          = (value, HitLevel.HitLocal) := by
  have hget := hret m.localCache key value hacc
  constructor
  · rw [get_of_local_hit _ key value reply (by rw [set_localCache]; exact hget)]
  · intro w outcome
    rw [get_of_local_hit _ key value reply
      (by rw [redisWrite_eq]; simpa [set_localCache] using hget)]

/-- C1, instance: a 6-byte value in a local tier that takes entries of up to
1024 bytes. -/
theorem C1_set_then_get_accepted_witness :
    BigCache.Retains MemCache ∧
    (BigCache.Set (localOnly 1024).localCache (utf8 "k") (utf8 "<svg/>")).2 = none ∧
    (((localOnly 1024).Set (utf8 "k") (utf8 "<svg/>")).1.Get (utf8 "k") RedisReply.nil).2
      = (utf8 "<svg/>", HitLevel.HitLocal) :=
  ⟨MemCache.retains, by decide,
    (C1_set_then_get_accepted MemCache.retains (localOnly 1024) (utf8 "k") (utf8 "<svg/>")
      RedisReply.nil (by decide)).1⟩

/-- C1 as stated fails: in a local tier with a per-entry maximum of 1024
bytes (BigCache shards of 1 KiB, as `local_hard_max_cache_mb: 1` gives),
`Set` of a 2000-byte value is rejected ("entry is bigger than max shard
size") and only logged, and the `Get` that follows misses. -/
theorem C1_rejected_write_counterexample :
    (((localOnly 1024).Set (utf8 "k") largeSVG).1.Get (utf8 "k") RedisReply.nil).2
      = ([], HitLevel.HitNone) ∧
    (((localOnly 1024).Set (utf8 "k") largeSVG).1.Get (utf8 "k") RedisReply.nil).2
      ≠ (largeSVG, HitLevel.HitLocal) := by
  have hset := MemCache.set_rejects (localOnly 1024).localCache (utf8 "k") largeSVG
    (by rw [largeSVG_length]; decide)
  have hget : ∀ data,
      BigCache.Get (localOnly 1024).localCache (utf8 "k") ≠ CacheGet.ok data := by
    intro data h; cases h
  have h : (((localOnly 1024).Set (utf8 "k") largeSVG).1.Get (utf8 "k")
      RedisReply.nil).2 = ([], HitLevel.HitNone) := by
    rw [set_eq, hset]
    rw [get_local_only _ _ _ (by simpa [warnIf_eq] using hget)
      (by simp [warnIf_eq, localOnly])]
  exact ⟨h, by rw [h]; simp⟩

/-- C2: when neither tier yields a value for the key (the local tier has no
entry and Redis, if it is asked, has none either), `Get` returns the empty
string with `HitNone`, the miss counter is the one incremented (modulo
`2^64`) and the two hit counters are unchanged. -/
theorem C2_get_unwritten_key {σ : Type} [BigCache σ] (m : Manager σ) (key : GoString)
    (reply : RedisReply)
    (hlocal : ∀ data, BigCache.Get m.localCache key ≠ CacheGet.ok data)
    (hremote : ∀ v, reply ≠ RedisReply.value v) :
    (m.Get key reply).2 = ([], HitLevel.HitNone) ∧
    (m.Get key reply).1.misses = u64Add m.misses 1 ∧
    (m.Get key reply).1.hitsLocal = m.hitsLocal ∧
    (m.Get key reply).1.hitsRedis = m.hitsRedis := by
  cases reply with
  | value v => exact absurd rfl (hremote v)
  | nil =>
    cases hc : (!m.redisEnabled || m.redis.isNone) with
    | true => simp [get_local_only m key _ hlocal hc, afterLocalMiss_eq]
    | false => simp [get_remote_nil m key hlocal hc, afterLocalMiss_eq]
  | fault e =>
    cases hc : (!m.redisEnabled || m.redis.isNone) with
    | true => simp [get_local_only m key _ hlocal hc, afterLocalMiss_eq]
    | false => simp [get_remote_fault m key e hlocal hc, afterLocalMiss_eq]

/-- C2, instance: a fresh Manager with the remote tier disabled. -/
theorem C2_get_unwritten_key_witness :
    ((localOnly 1024).Get (utf8 "k") RedisReply.nil).2 = ([], HitLevel.HitNone) ∧
    ((localOnly 1024).Get (utf8 "k") RedisReply.nil).1.misses = 1 ∧
    ((localOnly 1024).Get (utf8 "k") RedisReply.nil).1.hitsLocal = 0 ∧
    ((localOnly 1024).Get (utf8 "k") RedisReply.nil).1.hitsRedis = 0 :=
  C2_get_unwritten_key (localOnly 1024) (utf8 "k") RedisReply.nil
    (by intro data h; cases h) (by intro v h; cases h)

/-- C3 (amended): with the remote tier enabled, a key that misses the local
tier and for which Redis returns `v` makes `Get` return `(v, HitRedis)`, set
the health flag to alive, increment the remote-hit counter (modulo `2^64`)
and hand `v` to the local tier's `Set`; if the local tier accepts that write
(and returns what it accepted), a second `Get` of the key on the same
Manager returns `(v, HitLocal)`, whatever Redis would answer. -/
theorem C3_remote_hit_backfill {σ : Type} [BigCache σ] (hret : BigCache.Retains σ)
    (m : Manager σ) (key v : GoString)
    (hen : m.redisEnabled = true) (hcl : m.redis ≠ none)
    (hlocal : ∀ data, BigCache.Get m.localCache key ≠ CacheGet.ok data) :
    (m.Get key (RedisReply.value v)).2 = (v, HitLevel.HitRedis) ∧
    (m.Get key (RedisReply.value v)).1.redisAlive = true ∧
    (m.Get key (RedisReply.value v)).1.hitsRedis = u64Add m.hitsRedis 1 ∧
    (m.Get key (RedisReply.value v)).1.localCache = (BigCache.Set m.localCache key v).1 ∧
    ((BigCache.Set m.localCache key v).2 = none →
      ∀ reply, ((m.Get key (RedisReply.value v)).1.Get key reply).2
        = (v, HitLevel.HitLocal)) := by
  have hc := enabled_iff m hen hcl
  have hg := get_remote_value m key v hlocal hc
  refine ⟨by simp [hg], by simp [hg, hen], by simp [hg], by simp [hg], ?_⟩
  intro hacc reply
  rw [get_of_local_hit _ key v reply (by rw [hg]; exact hret _ _ _ hacc)]

/-- C3, instance: a Manager with Redis enabled, a local tier taking entries
of up to 1024 bytes and a 6-byte value held by Redis. -/
theorem C3_remote_hit_backfill_witness :
    ((withRedis 1024).Get (utf8 "k") (RedisReply.value (utf8 "<svg/>"))).2
      = (utf8 "<svg/>", HitLevel.HitRedis) ∧
    (((withRedis 1024).Get (utf8 "k") (RedisReply.value (utf8 "<svg/>"))).1.Get (utf8 "k")
      (RedisReply.fault "timeout")).2 = (utf8 "<svg/>", HitLevel.HitLocal) :=
  have h := C3_remote_hit_backfill MemCache.retains (withRedis 1024) (utf8 "k") (utf8 "<svg/>")
    (by decide) (by decide) (by intro data h; cases h)
  ⟨h.1, h.2.2.2.2 (by decide) (RedisReply.fault "timeout")⟩

/-- C3 as stated fails: when the local tier rejects the backfill (per-entry
maximum 1024 bytes, a 2000-byte value held by Redis), the first `Get`
returns `(v, HitRedis)` and only logs the rejection, and a second `Get` is
answered by Redis again. -/
theorem C3_rejected_backfill_counterexample :
    ((withRedis 1024).Get (utf8 "k") (RedisReply.value largeSVG)).2
      = (largeSVG, HitLevel.HitRedis) ∧
    (((withRedis 1024).Get (utf8 "k") (RedisReply.value largeSVG)).1.Get (utf8 "k")
      (RedisReply.value largeSVG)).2 = (largeSVG, HitLevel.HitRedis) ∧
    (((withRedis 1024).Get (utf8 "k") (RedisReply.value largeSVG)).1.Get (utf8 "k")
      (RedisReply.value largeSVG)).2 ≠ (largeSVG, HitLevel.HitLocal) := by
  have hset := MemCache.set_rejects (withRedis 1024).localCache (utf8 "k") largeSVG
    (by rw [largeSVG_length]; decide)
  have hget : ∀ data,
      BigCache.Get (withRedis 1024).localCache (utf8 "k") ≠ CacheGet.ok data := by
    intro data h; cases h
  have hon : (!(withRedis 1024).redisEnabled || (withRedis 1024).redis.isNone) = false := rfl
  have h1 := get_remote_value (withRedis 1024) (utf8 "k") largeSVG hget hon
  rw [hset] at h1
  have h2 : (((withRedis 1024).Get (utf8 "k") (RedisReply.value largeSVG)).1.Get (utf8 "k")
      (RedisReply.value largeSVG)).2 = (largeSVG, HitLevel.HitRedis) := by
    rw [h1]
    rw [get_remote_value _ _ _ (by simpa [afterLocalMiss_eq] using hget)
      (by simp [afterLocalMiss_eq, withRedis])]
  exact ⟨by rw [h1], h2, by rw [h2]; simp⟩

/-- C4: with the remote tier enabled, a key that misses the local tier and
whose Redis read fails with an error other than `redis.Nil` makes `Get`
return `("", HitNone)` (a value and a hit level, no error), increment the
miss counter by one (modulo `2^64`), leave the hit counters alone, log the
failure at warn level and set the health flag to dead. -/
theorem C4_remote_fault_degrades {σ : Type} [BigCache σ] (m : Manager σ) (key : GoString)
    (e : GoError) (hen : m.redisEnabled = true) (hcl : m.redis ≠ none)
    (hlocal : ∀ data, BigCache.Get m.localCache key ≠ CacheGet.ok data) :
    (m.Get key (RedisReply.fault e)).2 = ([], HitLevel.HitNone) ∧
    (m.Get key (RedisReply.fault e)).1.misses = u64Add m.misses 1 ∧
    (m.Get key (RedisReply.fault e)).1.hitsLocal = m.hitsLocal ∧
    (m.Get key (RedisReply.fault e)).1.hitsRedis = m.hitsRedis ∧
    (m.Get key (RedisReply.fault e)).1.redisAlive = false ∧
    (⟨Level.warn, "Redis 读取失败", some e⟩ : LogEntry) ∈ (m.Get key (RedisReply.fault e)).1.logger := by
  have hc := enabled_iff m hen hcl
  simp [get_remote_fault m key e hlocal hc, afterLocalMiss_eq]

/-- C4, instance: a Manager with Redis enabled and alive, and a timeout. -/
theorem C4_remote_fault_degrades_witness :
    ((withRedis 1024).Get (utf8 "k") (RedisReply.fault "i/o timeout")).2 = ([], HitLevel.HitNone) ∧
    ((withRedis 1024).Get (utf8 "k") (RedisReply.fault "i/o timeout")).1.misses = 1 ∧
    ((withRedis 1024).Get (utf8 "k") (RedisReply.fault "i/o timeout")).1.redisAlive = false :=
  have h := C4_remote_fault_degrades (withRedis 1024) (utf8 "k") "i/o timeout"
    (by decide) (by decide) (by intro data h; cases h)
  ⟨h.1, h.2.1, h.2.2.2.2.1⟩

/-- C5: with the remote tier enabled, a key that misses the local tier and
for which Redis reports `redis.Nil` makes `Get` return `("", HitNone)` and
increment the miss counter by one (modulo `2^64`); the health flag, the two
hit counters and the local tier are unchanged, and whatever is logged is not
a health-transition entry. -/
theorem C5_remote_absence {σ : Type} [BigCache σ] (m : Manager σ) (key : GoString)
    (hen : m.redisEnabled = true) (hcl : m.redis ≠ none)
    (hlocal : ∀ data, BigCache.Get m.localCache key ≠ CacheGet.ok data) :
    (m.Get key RedisReply.nil).2 = ([], HitLevel.HitNone) ∧
    (m.Get key RedisReply.nil).1.misses = u64Add m.misses 1 ∧
    (m.Get key RedisReply.nil).1.redisAlive = m.redisAlive ∧
    (m.Get key RedisReply.nil).1.hitsLocal = m.hitsLocal ∧
    (m.Get key RedisReply.nil).1.hitsRedis = m.hitsRedis ∧
    (m.Get key RedisReply.nil).1.localCache = m.localCache ∧
    ∃ extra, (m.Get key RedisReply.nil).1.logger = m.logger ++ extra ∧
      ∀ x ∈ extra, isTransition x = false := by
  have hc := enabled_iff m hen hcl
  rw [get_remote_nil m key hlocal hc]
  refine ⟨rfl, rfl, ?_, ?_, ?_, ?_, ?_⟩
  · simp [afterLocalMiss_eq]
  · simp [afterLocalMiss_eq]
  · simp [afterLocalMiss_eq]
  · simp [afterLocalMiss_eq]
  · exact afterLocalMiss_logger m (BigCache.Get m.localCache key)

/-- C5, instance: a Manager with Redis enabled and alive, key absent. -/
theorem C5_remote_absence_witness :
    ((withRedis 1024).Get (utf8 "k") RedisReply.nil).2 = ([], HitLevel.HitNone) ∧
    ((withRedis 1024).Get (utf8 "k") RedisReply.nil).1.misses = 1 ∧
    ((withRedis 1024).Get (utf8 "k") RedisReply.nil).1.redisAlive = true :=
  have h := C5_remote_absence (withRedis 1024) (utf8 "k")
    (by decide) (by decide) (by intro data h; cases h)
  ⟨h.1, h.2.1, h.2.2.1⟩

/-! ## Health transitions -/

theorem markAll_logger {σ : Type} (outs : List Bool) :
    ∀ (m : Manager σ), m.redisEnabled = true →
      (m.markAll outs).logger = m.logger ++ transitionLog m.redisAlive outs ∧
      (m.markAll outs).redisAlive = outs.getLast?.getD m.redisAlive := by
  induction outs with
  | nil => intro m _; simp [Manager.markAll, transitionLog]
  | cons a rest ih =>
    intro m hen
    have hstep : (m.markRedisAlive a).redisEnabled = true := by simp [markRedisAlive_eq, hen]
    have h := ih (m.markRedisAlive a) hstep
    have hm : m.markAll (a :: rest) = (m.markRedisAlive a).markAll rest := rfl
    rw [hm, h.1, h.2]
    constructor
    · cases a <;> cases hp : m.redisAlive <;>
        simp [markRedisAlive_eq, healthLog, hen, hp, transitionLog]
    · cases rest with
      | nil => simp [markRedisAlive_eq, hen]
      | cons b rest2 =>
        simp only [List.getLast?_cons_cons]
        cases hl : (b :: rest2).getLast? with
        | none => simp at hl
        | some x => rfl

theorem transitionLog_failures (n : Nat) :
    transitionLog true (List.replicate (n + 1) false) = [deadLog] := by
  have h : ∀ k, transitionLog false (List.replicate k false) = [] := by
    intro k
    induction k with
    | zero => rfl
    | succ k ih => simp [List.replicate_succ, transitionLog, ih]
  simp [List.replicate_succ, transitionLog, h]

/-- C6: with the remote tier enabled, `markRedisAlive` writes a transition
entry exactly on the calls whose argument differs from the health flag: over
any sequence of outcomes the log grows by the transition events of that
sequence and the flag ends at the last outcome; a single call sets the flag
to its argument and logs one entry if the flag changed and nothing if it did
not; a run of one or more failures from the alive state logs exactly one
dead-transition entry; a success from the dead state logs exactly one
alive-transition entry. -/
theorem C6_transition_logged_once {σ : Type} (m : Manager σ) (hen : m.redisEnabled = true) :
    (∀ outs : List Bool,
      (m.markAll outs).logger = m.logger ++ transitionLog m.redisAlive outs ∧
      (m.markAll outs).redisAlive = outs.getLast?.getD m.redisAlive) ∧
    (∀ a : Bool,
      (m.markRedisAlive a).redisAlive = a ∧
      (m.markRedisAlive a).logger =
        m.logger ++ (if m.redisAlive = a then [] else [if a then aliveLog else deadLog])) ∧
    (∀ n : Nat,
      (({ m with redisAlive := true }).markAll (List.replicate (n + 1) false)).logger
        = m.logger ++ [deadLog]) ∧
    (({ m with redisAlive := false }).markRedisAlive true).logger = m.logger ++ [aliveLog] ∧
    (m.markRedisAlive m.redisAlive).logger = m.logger := by
  refine ⟨fun outs => markAll_logger outs m hen, ?_, ?_, ?_, ?_⟩
  · intro a
    cases a <;> cases hp : m.redisAlive <;> simp [markRedisAlive_eq, healthLog, hen, hp]
  · intro n
    have h := (markAll_logger (List.replicate (n + 1) false) { m with redisAlive := true } hen).1
    rw [h, transitionLog_failures]
  · simp [markRedisAlive_eq, healthLog, hen]
  · cases hp : m.redisAlive <;> simp [markRedisAlive_eq, healthLog, hen, hp]

/-- C6, instance: three failures after the alive state, then a success. -/
theorem C6_transition_logged_once_witness :
    ((withRedis 1024).markAll [false, false, false]).logger = [aliveLog, deadLog] ∧
    ((withRedis 1024).markAll [false, false, false, true]).logger
      = [aliveLog, deadLog, aliveLog] :=
  have h := (C6_transition_logged_once (withRedis 1024) (by decide)).1
  ⟨(h [false, false, false]).1, (h [false, false, false, true]).1⟩

/-! ## Runs with the remote tier disabled -/

theorem run_cons {σ : Type} [BigCache σ] (s : System σ) (c : Call) (cs : List Call) :
    System.run s (c :: cs) =
      ((System.run (s.step c).1 cs).1, (s.step c).2 :: (System.run (s.step c).1 cs).2) := rfl

theorem warn_not_transition (msg : String) (e : GoError) :
    isTransition ⟨Level.warn, msg, some e⟩ = false := by
  simp [isTransition, aliveLog, deadLog]

/-- One step of a Manager whose remote tier is disabled, whose health flag
is dead and which has no goroutine pending: all three stay so, no Redis
command is sent, no transition entry is logged, and the step does not depend
on what the network would have answered. -/
theorem step_disabled {σ : Type} [BigCache σ] (s : System σ) (c : Call)
    (hen : s.mgr.redisEnabled = false) (hdead : s.mgr.redisAlive = false)
    (hpend : s.pending = []) :
    (s.step c).1.mgr.redisEnabled = false ∧
    (s.step c).1.mgr.redisAlive = false ∧
    (s.step c).1.pending = [] ∧
    (s.step c).1.mgr.redisOps = s.mgr.redisOps ∧
    (s.step c).1.mgr.logger.filter isTransition = s.mgr.logger.filter isTransition ∧
    s.step c.forgetRemote = s.step c := by
  have hoff : (!s.mgr.redisEnabled || s.mgr.redis.isNone) = true := by simp [hen]
  cases c with
  | get key reply =>
    cases hg : BigCache.Get s.mgr.localCache key with
    | ok data =>
      simp [System.step, Call.forgetRemote, get_of_local_hit _ key data _ hg, hen, hdead, hpend]
    | notFound =>
      have hl : ∀ data, BigCache.Get s.mgr.localCache key ≠ CacheGet.ok data := by
        intro data h; rw [hg] at h; cases h
      simp [System.step, Call.forgetRemote, get_local_only _ key _ hl hoff, hg,
        afterLocalMiss_eq, hen, hdead, hpend]
    | fault e =>
      have hl : ∀ data, BigCache.Get s.mgr.localCache key ≠ CacheGet.ok data := by
        intro data h; rw [hg] at h; cases h
      simp [System.step, Call.forgetRemote, get_local_only _ key _ hl hoff, hg,
        afterLocalMiss_eq, hen, hdead, hpend, List.filter_append, warn_not_transition]
  | set key value =>
    cases hs : (BigCache.Set s.mgr.localCache key value).2 <;>
      simp [System.step, Call.forgetRemote, set_eq, warnIf_eq, hen, hdead, hpend, hs,
        List.filter_append, warn_not_transition]
  | async i outcome =>
    simp [System.step, Call.forgetRemote, hen, hdead, hpend]

theorem run_disabled {σ : Type} [BigCache σ] (calls : List Call) :
    ∀ (s : System σ), s.mgr.redisEnabled = false → s.mgr.redisAlive = false →
      s.pending = [] →
      (System.run s calls).1.mgr.redisEnabled = false ∧
      (System.run s calls).1.mgr.redisAlive = false ∧
      (System.run s calls).1.pending = [] ∧
      (System.run s calls).1.mgr.redisOps = s.mgr.redisOps ∧
      (System.run s calls).1.mgr.logger.filter isTransition
        = s.mgr.logger.filter isTransition ∧
      System.run s (calls.map Call.forgetRemote) = System.run s calls := by
  induction calls with
  | nil => intro s hen hdead hpend; simp [System.run, hen, hdead, hpend]
  | cons c cs ih =>
    intro s hen hdead hpend
    obtain ⟨h1, h2, h3, h4, h5, h6⟩ := step_disabled s c hen hdead hpend
    obtain ⟨k1, k2, k3, k4, k5, k6⟩ := ih (s.step c).1 h1 h2 h3
    simp only [List.map_cons, run_cons, h6, k6]
    exact ⟨k1, k2, k3, k4.trans h4, k5.trans h5, trivial⟩

/-- C7: with the remote tier disabled (and the health flag dead, as
`NewManager` leaves it), over every sequence of `Get` and `Set` calls, and
of scheduler steps, no Redis command is sent and no goroutine is started,
every call is answered from the local tier alone (blanking out what the
network would have answered changes nothing), `Stats` keeps reporting the
remote tier as disabled and dead, and no transition entry is logged;
`markRedisAlive` with either argument stores `false` and logs nothing. -/
theorem C7_disabled_remote_untouched {σ : Type} [BigCache σ] (m : Manager σ)
    (hen : m.redisEnabled = false) (hdead : m.redisAlive = false) (calls : List Call) :
    (System.run ⟨m, []⟩ calls).1.mgr.redisOps = m.redisOps ∧
    (System.run ⟨m, []⟩ calls).1.pending = [] ∧
    System.run ⟨m, []⟩ (calls.map Call.forgetRemote) = System.run ⟨m, []⟩ calls ∧
    (System.run ⟨m, []⟩ calls).1.mgr.Stats.RedisEnabled = false ∧
    (System.run ⟨m, []⟩ calls).1.mgr.Stats.RedisAlive = false ∧
    (System.run ⟨m, []⟩ calls).1.mgr.logger.filter isTransition
      = m.logger.filter isTransition ∧
    (∀ a : Bool, (m.markRedisAlive a).redisAlive = false ∧
      (m.markRedisAlive a).logger = m.logger) := by
  obtain ⟨h1, h2, h3, h4, h5, h6⟩ := run_disabled calls ⟨m, []⟩ hen hdead rfl
  refine ⟨h4, h3, h6, h1, h2, h5, ?_⟩
  intro a
  simp [markRedisAlive_eq, healthLog, hen]

/-- C7, instance: a miss, a write, a hit and a stray scheduler step on a
Manager without Redis. -/
theorem C7_disabled_remote_untouched_witness :
    (System.run ⟨localOnly 1024, []⟩
      [Call.get (utf8 "k") (RedisReply.value (utf8 "x")), Call.set (utf8 "k") (utf8 "<svg/>"),
       Call.get (utf8 "k") (RedisReply.fault "timeout"), Call.async 0 none]).1.mgr.redisOps = [] ∧
    (System.run ⟨localOnly 1024, []⟩
      [Call.get (utf8 "k") (RedisReply.value (utf8 "x")), Call.set (utf8 "k") (utf8 "<svg/>"),
       Call.get (utf8 "k") (RedisReply.fault "timeout"), Call.async 0 none]).2
      = [some ([], HitLevel.HitNone), none, some (utf8 "<svg/>", HitLevel.HitLocal), none] :=
  ⟨(C7_disabled_remote_untouched (localOnly 1024) (by decide) (by decide) _).1, by decide⟩

/-! ## Counters -/

/-- Each `Get` adds one to the counter of the hit level it returns and to no
other. -/
theorem get_counters {σ : Type} [BigCache σ] (m : Manager σ) (key : GoString)
    (reply : RedisReply) :
    (m.Get key reply).1.counters = bump (m.Get key reply).2.2 m.counters := by
  cases hg : BigCache.Get m.localCache key with
  | ok data => simp [get_of_local_hit _ key data _ hg, Manager.counters, bump]
  | notFound =>
    have hl : ∀ data, BigCache.Get m.localCache key ≠ CacheGet.ok data := by
      intro data h; rw [hg] at h; cases h
    cases hc : (!m.redisEnabled || m.redis.isNone) with
    | true => simp [get_local_only _ key _ hl hc, afterLocalMiss_eq, Manager.counters, bump]
    | false =>
      cases reply with
      | value v => simp [get_remote_value _ key v hl hc, afterLocalMiss_eq, Manager.counters, bump]
      | nil => simp [get_remote_nil _ key hl hc, afterLocalMiss_eq, Manager.counters, bump]
      | fault e => simp [get_remote_fault _ key e hl hc, afterLocalMiss_eq, Manager.counters, bump]
  | fault e0 =>
    have hl : ∀ data, BigCache.Get m.localCache key ≠ CacheGet.ok data := by
      intro data h; rw [hg] at h; cases h
    cases hc : (!m.redisEnabled || m.redis.isNone) with
    | true => simp [get_local_only _ key _ hl hc, afterLocalMiss_eq, Manager.counters, bump]
    | false =>
      cases reply with
      | value v => simp [get_remote_value _ key v hl hc, afterLocalMiss_eq, Manager.counters, bump]
      | nil => simp [get_remote_nil _ key hl hc, afterLocalMiss_eq, Manager.counters, bump]
      | fault e => simp [get_remote_fault _ key e hl hc, afterLocalMiss_eq, Manager.counters, bump]

/-- A `Set` changes no counter. -/
theorem set_counters {σ : Type} [BigCache σ] (m : Manager σ) (key value : GoString) :
    (m.Set key value).1.counters = m.counters := by
  simp [set_eq, warnIf_eq, Manager.counters]

/-- The goroutine started by `Set` changes no counter. -/
theorem redisWrite_counters {σ : Type} (m : Manager σ) (w : RedisWrite)
    (o : Option GoError) : (m.redisWrite w o).counters = m.counters := by
  simp [redisWrite_eq, Manager.counters]

/-- The counters after a run, modulo `2^64`, are the counters before plus
the number of `Get` results at each hit level. -/
theorem run_counters {σ : Type} [BigCache σ] (calls : List Call) :
    ∀ (s : System σ) (a b c : Nat),
      s.mgr.counters = (a % 2 ^ 64, b % 2 ^ 64, c % 2 ^ 64) →
      (System.run s calls).1.mgr.counters =
        ((a + hitCount HitLevel.HitLocal (System.run s calls).2) % 2 ^ 64,
         (b + hitCount HitLevel.HitRedis (System.run s calls).2) % 2 ^ 64,
         (c + hitCount HitLevel.HitNone (System.run s calls).2) % 2 ^ 64) := by
  induction calls with
  | nil => intro s a b c h; simpa [System.run, hitCount] using h
  | cons call cs ih =>
    intro s a b c h
    rw [run_cons]
    cases call with
    | get key reply =>
      have hstep : (s.step (Call.get key reply)).1.mgr.counters
          = bump (s.mgr.Get key reply).2.2 (a % 2 ^ 64, b % 2 ^ 64, c % 2 ^ 64) := by
        simp only [System.step]; rw [get_counters, h]
      have hres : (s.step (Call.get key reply)).2 = some (s.mgr.Get key reply).2 := rfl
      cases hl : (s.mgr.Get key reply).2.2 with
      | HitNone =>
        rw [hl] at hstep
        have h' : (s.step (Call.get key reply)).1.mgr.counters
            = (a % 2 ^ 64, b % 2 ^ 64, (c + 1) % 2 ^ 64) := by
          rw [hstep]; simp [bump, u64Add]
        rw [ih _ a b (c + 1) h', hres]
        simp [hitCount, List.countP_cons, hl]
        omega
      | HitLocal =>
        rw [hl] at hstep
        have h' : (s.step (Call.get key reply)).1.mgr.counters
            = ((a + 1) % 2 ^ 64, b % 2 ^ 64, c % 2 ^ 64) := by
          rw [hstep]; simp [bump, u64Add]
        rw [ih _ (a + 1) b c h', hres]
        simp [hitCount, List.countP_cons, hl]
        omega
      | HitRedis =>
        rw [hl] at hstep
        have h' : (s.step (Call.get key reply)).1.mgr.counters
            = (a % 2 ^ 64, (b + 1) % 2 ^ 64, c % 2 ^ 64) := by
          rw [hstep]; simp [bump, u64Add]
        rw [ih _ a (b + 1) c h', hres]
        simp [hitCount, List.countP_cons, hl]
        omega
    | set key value =>
      have h' : (s.step (Call.set key value)).1.mgr.counters
          = (a % 2 ^ 64, b % 2 ^ 64, c % 2 ^ 64) := by
        simp only [System.step]; rw [set_counters, h]
      have hres : (s.step (Call.set key value)).2 = none := rfl
      rw [ih _ a b c h', hres]
      simp [hitCount, List.countP_cons]
    | async i o =>
      have h' : (s.step (Call.async i o)).1.mgr.counters
          = (a % 2 ^ 64, b % 2 ^ 64, c % 2 ^ 64) := by
        simp only [System.step]
        cases s.pending.get? i with
        | none => simpa using h
        | some w => simp only []; rw [redisWrite_counters, h]
      have hres : (s.step (Call.async i o)).2 = none := by
        simp only [System.step]
        cases s.pending.get? i <;> rfl
      rw [ih _ a b c h', hres]
      simp [hitCount, List.countP_cons]

theorem run_append {σ : Type} [BigCache σ] (pre post : List Call) :
    ∀ (s : System σ), System.run s (pre ++ post) =
      ((System.run (System.run s pre).1 post).1,
        (System.run s pre).2 ++ (System.run (System.run s pre).1 post).2) := by
  induction pre with
  | nil => intro s; simp [System.run]
  | cons c cs ih => intro s; simp [run_cons, ih]

/-- Every `Get` call of a run is counted at exactly one hit level. -/
theorem run_hitCount_sum {σ : Type} [BigCache σ] (calls : List Call) :
    ∀ (s : System σ),
      hitCount HitLevel.HitLocal (System.run s calls).2 +
        hitCount HitLevel.HitRedis (System.run s calls).2 +
        hitCount HitLevel.HitNone (System.run s calls).2 = getCount calls := by
  induction calls with
  | nil => intro s; simp [System.run, hitCount, getCount]
  | cons c cs ih =>
    intro s
    have h := ih (s.step c).1
    simp only [hitCount, getCount] at h ⊢
    rw [run_cons]
    cases c with
    | get key reply =>
      have hres : (s.step (Call.get key reply)).2 = some (s.mgr.Get key reply).2 := rfl
      cases hl : (s.mgr.Get key reply).2.2 <;>
        simp [List.countP_cons, hres, hl] <;> omega
    | set key value =>
      have hres : (s.step (Call.set key value)).2 = none := rfl
      simp [List.countP_cons, hres]
      omega
    | async i o =>
      have hres : (s.step (Call.async i o)).2 = none := by
        simp only [System.step]
        cases s.pending.get? i <;> rfl
      simp [List.countP_cons, hres]
      omega

theorem getCount_append (pre post : List Call) :
    getCount (pre ++ post) = getCount pre + getCount post := by
  simp [getCount, List.countP_append]

theorem hitCount_append (lvl : HitLevel) (xs ys : List (Option (GoString × HitLevel))) :
    hitCount lvl (xs ++ ys) = hitCount lvl xs + hitCount lvl ys := by
  simp [hitCount, List.countP_append]

/-- Every Manager from `NewManager` starts with all three counters at zero. -/
theorem NewManager_counters {σ : Type} (cfg : Cache) (logger : List LogEntry) (c : σ)
    (ping : Option GoError) (m : Manager σ)
    (h : NewManager cfg logger (Except.ok c) ping = Except.ok m) :
    m.counters = (0, 0, 0) := by
  unfold NewManager at h
  cases hcfg : cfg.RedisEnabled <;> cases ping <;>
    simp [hcfg, markRedisAlive_eq, Manager.WarnErr] at h <;>
    (subst h; rfl)

/-- A run from a fresh Manager with fewer than `2^64` `Get` calls: each
counter is the number of results at its hit level. -/
theorem run_fresh_counters {σ : Type} [BigCache σ] (m : Manager σ)
    (h0 : m.counters = (0, 0, 0)) (calls : List Call) (hlen : getCount calls < 2 ^ 64) :
    (System.run ⟨m, []⟩ calls).1.mgr.counters =
      (hitCount HitLevel.HitLocal (System.run ⟨m, []⟩ calls).2,
       hitCount HitLevel.HitRedis (System.run ⟨m, []⟩ calls).2,
       hitCount HitLevel.HitNone (System.run ⟨m, []⟩ calls).2) := by
  have hs := run_hitCount_sum calls (⟨m, []⟩ : System σ)
  have h := run_counters calls (⟨m, []⟩ : System σ) 0 0 0 (by simpa using h0)
  rw [h]
  simp only [Nat.zero_add]
  rw [Nat.mod_eq_of_lt (by omega), Nat.mod_eq_of_lt (by omega), Nat.mod_eq_of_lt (by omega)]

/-- C8: on a Manager fresh from `NewManager`, after any sequence of `Get`
and `Set` calls and scheduler steps containing fewer than `2^64` `Get`
calls, `Stats` reports `HitsLocal`, `HitsRedis` and `Misses` equal to the
number of `Get` calls that returned `HitLocal`, `HitRedis` and `HitNone`;
the three sum to the number of `Get` calls; no counter is smaller at the end
than after any prefix of the run; and on any Manager a `Get` adds one
(modulo `2^64`) to exactly the counter of the hit level it returns, while
`Set` and the goroutine it starts change no counter. -/
theorem C8_stats_count_gets {σ : Type} [BigCache σ] (cfg : Cache) (logger : List LogEntry)
    (c : σ) (ping : Option GoError) (m : Manager σ)
    (hnew : NewManager cfg logger (Except.ok c) ping = Except.ok m)
    (calls : List Call) (hlen : getCount calls < 2 ^ 64) :
    (System.run ⟨m, []⟩ calls).1.mgr.Stats.HitsLocal
      = hitCount HitLevel.HitLocal (System.run ⟨m, []⟩ calls).2 ∧
    (System.run ⟨m, []⟩ calls).1.mgr.Stats.HitsRedis
      = hitCount HitLevel.HitRedis (System.run ⟨m, []⟩ calls).2 ∧
    (System.run ⟨m, []⟩ calls).1.mgr.Stats.Misses
      = hitCount HitLevel.HitNone (System.run ⟨m, []⟩ calls).2 ∧
    (System.run ⟨m, []⟩ calls).1.mgr.Stats.HitsLocal +
      (System.run ⟨m, []⟩ calls).1.mgr.Stats.HitsRedis +
      (System.run ⟨m, []⟩ calls).1.mgr.Stats.Misses = getCount calls ∧
    (∀ pre post : List Call, calls = pre ++ post →
      (System.run ⟨m, []⟩ pre).1.mgr.Stats.HitsLocal
        ≤ (System.run ⟨m, []⟩ calls).1.mgr.Stats.HitsLocal ∧
      (System.run ⟨m, []⟩ pre).1.mgr.Stats.HitsRedis
        ≤ (System.run ⟨m, []⟩ calls).1.mgr.Stats.HitsRedis ∧
      (System.run ⟨m, []⟩ pre).1.mgr.Stats.Misses
        ≤ (System.run ⟨m, []⟩ calls).1.mgr.Stats.Misses) ∧
    (∀ (m1 : Manager σ) (key : GoString) (reply : RedisReply),
      (m1.Get key reply).1.counters = bump (m1.Get key reply).2.2 m1.counters) ∧
    (∀ (m1 : Manager σ) (key value : GoString),
      (m1.Set key value).1.counters = m1.counters) ∧
    (∀ (m1 : Manager σ) (w : RedisWrite) (o : Option GoError),
      (m1.redisWrite w o).counters = m1.counters) := by
  have h0 := NewManager_counters cfg logger c ping m hnew
  have hall := run_fresh_counters m h0 calls hlen
  have hsum := run_hitCount_sum calls (⟨m, []⟩ : System σ)
  simp only [Manager.counters, Prod.mk.injEq] at hall
  obtain ⟨hL, hR, hN⟩ := hall
  refine ⟨hL, hR, hN, ?_, ?_, get_counters, set_counters, redisWrite_counters⟩
  · show (System.run ⟨m, []⟩ calls).1.mgr.hitsLocal + (System.run ⟨m, []⟩ calls).1.mgr.hitsRedis
      + (System.run ⟨m, []⟩ calls).1.mgr.misses = getCount calls
    rw [hL, hR, hN]; exact hsum
  · intro pre post hsplit
    have hpre : getCount pre < 2 ^ 64 := by
      rw [hsplit, getCount_append] at hlen; omega
    have hp := run_fresh_counters m h0 pre hpre
    simp only [Manager.counters, Prod.mk.injEq] at hp
    obtain ⟨pL, pR, pN⟩ := hp
    show (System.run ⟨m, []⟩ pre).1.mgr.hitsLocal ≤ (System.run ⟨m, []⟩ calls).1.mgr.hitsLocal ∧
      (System.run ⟨m, []⟩ pre).1.mgr.hitsRedis ≤ (System.run ⟨m, []⟩ calls).1.mgr.hitsRedis ∧
      (System.run ⟨m, []⟩ pre).1.mgr.misses ≤ (System.run ⟨m, []⟩ calls).1.mgr.misses
    rw [hL, hR, hN, pL, pR, pN]
    subst hsplit
    rw [run_append]
    simp only [hitCount_append]
    omega

/-- C8, instance: miss, write, hit, miss on a Manager built by `NewManager`
without Redis. -/
theorem C8_stats_count_gets_witness :
    NewManager ⟨false, 0⟩ [] (Except.ok (MemCache.empty 1024)) none = Except.ok (localOnly 1024) ∧
    (System.run ⟨localOnly 1024, []⟩
      [Call.get (utf8 "k") RedisReply.nil, Call.set (utf8 "k") (utf8 "<svg/>"),
       Call.get (utf8 "k") RedisReply.nil, Call.get (utf8 "j") RedisReply.nil]).1.mgr.Stats.HitsLocal
      = 1 ∧
    (System.run ⟨localOnly 1024, []⟩
      [Call.get (utf8 "k") RedisReply.nil, Call.set (utf8 "k") (utf8 "<svg/>"),
       Call.get (utf8 "k") RedisReply.nil, Call.get (utf8 "j") RedisReply.nil]).1.mgr.Stats.Misses
      = 2 :=
  have h := C8_stats_count_gets ⟨false, 0⟩ [] (MemCache.empty 1024) none (localOnly 1024) rfl
    [Call.get (utf8 "k") RedisReply.nil, Call.set (utf8 "k") (utf8 "<svg/>"),
     Call.get (utf8 "k") RedisReply.nil, Call.get (utf8 "j") RedisReply.nil]
    (by decide)
  ⟨rfl, h.1.trans (by decide), h.2.2.1.trans (by decide)⟩

/-! ## The render handler -/

/-- What `handleRender` does with an input that passes validation, in terms
of the `Get` it performs and of the renderer's answer. -/
theorem handleRender_valid {σ : Type} [BigCache σ] (Sum256 : GoString → GoString)
    (h : RenderHandler σ) (tex : GoString) (reply : RedisReply)
    (hvalid : (validateFormula tex).2 = none) :
    h.handleRender Sum256 tex reply =
      (let normalized := (validateFormula tex).1
       let cacheKey := hashFormula Sum256 normalized
       let g := h.cache.Get cacheKey reply
       if g.2.2 = HitLevel.HitNone then
        match (h.renderer normalized).2 with
        | some err =>
          { handler := { h with cache := g.1,
                                logger := h.logger ++ [⟨Level.error, "渲染失败", some err⟩] }
            response := ⟨422, responseContentType, errorSVG⟩
            started := none
            calls := [Effect.cacheGet cacheKey, Effect.render normalized] }
        | none =>
          { handler := { h with cache := (g.1.Set cacheKey (h.renderer normalized).1).1,
                                logger := h.logger ++ [⟨Level.info, "公式渲染完成", none⟩] }
            response := ⟨200, responseContentType, (h.renderer normalized).1⟩
            started := (g.1.Set cacheKey (h.renderer normalized).1).2
            calls := [Effect.cacheGet cacheKey, Effect.render normalized,
                      Effect.cacheSet cacheKey (h.renderer normalized).1] }
       else
        { handler := { h with cache := g.1,
                              logger := h.logger ++ [⟨Level.info, "公式渲染完成", none⟩] }
          response := ⟨200, responseContentType, g.2.1⟩
          started := none
          calls := [Effect.cacheGet cacheKey] }) := by
  unfold RenderHandler.handleRender
  simp only [hvalid]
  try rfl

/-- C9: for an input that passes `validateFormula`, `handleRender` calls the
renderer (on the normalized text) exactly when `Manager.Get` on the
fingerprint returned `HitNone`, and calls `Manager.Set` (with the
fingerprint and the rendered artifact) exactly when that render succeeded.
On a hit at either level the cached artifact is sent with status 200 and
nothing else is called; on render success the rendered artifact is sent
with status 200 and the cache is the one after `Set`; on render failure
status 422 with the error SVG is sent and the cache is as `Get` left it. -/
theorem C9_render_only_on_miss {σ : Type} [BigCache σ] (Sum256 : GoString → GoString)
    (h : RenderHandler σ) (tex : GoString) (reply : RedisReply)
    (hvalid : (validateFormula tex).2 = none) :
    ((∃ t, Effect.render t ∈ (h.handleRender Sum256 tex reply).calls) ↔
      (h.cache.Get (hashFormula Sum256 (validateFormula tex).1) reply).2.2
        = HitLevel.HitNone) ∧
    ((∃ k v, Effect.cacheSet k v ∈ (h.handleRender Sum256 tex reply).calls) ↔
      ((h.cache.Get (hashFormula Sum256 (validateFormula tex).1) reply).2.2
        = HitLevel.HitNone ∧ (h.renderer (validateFormula tex).1).2 = none)) ∧
    (h.handleRender Sum256 tex reply).calls =
      Effect.cacheGet (hashFormula Sum256 (validateFormula tex).1) ::
        (if (h.cache.Get (hashFormula Sum256 (validateFormula tex).1) reply).2.2
            = HitLevel.HitNone then
          Effect.render (validateFormula tex).1 ::
            (if (h.renderer (validateFormula tex).1).2 = none then
              [Effect.cacheSet (hashFormula Sum256 (validateFormula tex).1)
                (h.renderer (validateFormula tex).1).1]
             else [])
         else []) ∧
    (h.handleRender Sum256 tex reply).response =
      (if (h.cache.Get (hashFormula Sum256 (validateFormula tex).1) reply).2.2
          = HitLevel.HitNone then
        (if (h.renderer (validateFormula tex).1).2 = none then
          ⟨200, responseContentType, (h.renderer (validateFormula tex).1).1⟩
         else ⟨422, responseContentType, errorSVG⟩)
       else
        ⟨200, responseContentType,
          (h.cache.Get (hashFormula Sum256 (validateFormula tex).1) reply).2.1⟩) ∧
    (h.handleRender Sum256 tex reply).handler.cache =
      (if (h.cache.Get (hashFormula Sum256 (validateFormula tex).1) reply).2.2
            = HitLevel.HitNone ∧ (h.renderer (validateFormula tex).1).2 = none then
        ((h.cache.Get (hashFormula Sum256 (validateFormula tex).1) reply).1.Set
          (hashFormula Sum256 (validateFormula tex).1)
          (h.renderer (validateFormula tex).1).1).1
       else (h.cache.Get (hashFormula Sum256 (validateFormula tex).1) reply).1) ∧
    (h.handleRender Sum256 tex reply).started =
      (if (h.cache.Get (hashFormula Sum256 (validateFormula tex).1) reply).2.2
            = HitLevel.HitNone ∧ (h.renderer (validateFormula tex).1).2 = none then
        ((h.cache.Get (hashFormula Sum256 (validateFormula tex).1) reply).1.Set
          (hashFormula Sum256 (validateFormula tex).1)
          (h.renderer (validateFormula tex).1).1).2
       else none) := by
  rw [handleRender_valid Sum256 h tex reply hvalid]
  dsimp only
  by_cases hhit : (h.cache.Get (hashFormula Sum256 (validateFormula tex).1) reply).2.2
      = HitLevel.HitNone
  · cases hr : (h.renderer (validateFormula tex).1).2 with
    | none => simp [hhit, hr]
    | some e => simp [hhit, hr]
  · simp [hhit]

/-- C9, instance: a first request for a formula on a Manager without Redis
is rendered and stored, and the same request on the handler it leaves is
answered from the cache without rendering. -/
theorem C9_render_only_on_miss_witness :
    (validateFormula (utf8 " E=mc^2 ")).2 = none ∧
    (sampleHandler.handleRender sampleSum256 (utf8 " E=mc^2 ") RedisReply.nil).calls
      = [Effect.cacheGet (utf8 "453d6d635e32"), Effect.render (utf8 "E=mc^2"),
         Effect.cacheSet (utf8 "453d6d635e32") (utf8 "<svg>E=mc^2</svg>")] ∧
    (sampleHandler.handleRender sampleSum256 (utf8 " E=mc^2 ") RedisReply.nil).response
      = ⟨200, responseContentType, utf8 "<svg>E=mc^2</svg>"⟩ ∧
    ((sampleHandler.handleRender sampleSum256 (utf8 " E=mc^2 ")
        RedisReply.nil).handler.handleRender sampleSum256 (utf8 " E=mc^2 ") RedisReply.nil).calls
      = [Effect.cacheGet (utf8 "453d6d635e32")] :=
  have h := C9_render_only_on_miss sampleSum256 sampleHandler (utf8 " E=mc^2 ")
    RedisReply.nil (by decide)
  have h2 := C9_render_only_on_miss sampleSum256
    (sampleHandler.handleRender sampleSum256 (utf8 " E=mc^2 ") RedisReply.nil).handler
    (utf8 " E=mc^2 ") RedisReply.nil (by decide)
  ⟨by decide, h.2.2.1.trans (by decide), h.2.2.2.1.trans (by decide),
    h2.2.2.1.trans (by decide)⟩

/-! ## Runes and white space -/

theorem decodeMulti_width (s0 sz lo hi : Nat) (rest : GoString) :
    1 ≤ (decodeMulti s0 sz lo hi rest).2 ∧ (decodeMulti s0 sz lo hi rest).2 ≤ 4 := by
  unfold decodeMulti
  dsimp only
  split_ifs <;> simp

/-- Decoding a rune from a non-empty string consumes between one and four
bytes. -/
theorem DecodeRune_width (s : GoString) (h : s ≠ []) :
    1 ≤ (DecodeRune s).2 ∧ (DecodeRune s).2 ≤ 4 := by
  cases s with
  | nil => exact absurd rfl h
  | cons a rest =>
    unfold DecodeRune
    dsimp only
    by_cases h1 : a < 0x80
    · simp [h1]
    · by_cases h2 : a < 0xC2 ∨ 0xF4 < a
      · simp [h1, h2]
      · rw [if_neg h1, if_neg h2]
        exact decodeMulti_width _ _ _ _ _

/-- The fuel of `decodeAux` suffices: the encodings of the decoded runes,
put together, are the whole string. -/
theorem decodeAux_flatMap (fuel : Nat) :
    ∀ s : GoString, s.length ≤ fuel → (decodeAux fuel s).flatMap Prod.snd = s := by
  induction fuel with
  | zero =>
    intro s hs
    have : s = [] := List.length_eq_zero.mp (Nat.le_zero.mp hs)
    subst this
    rfl
  | succ n ih =>
    intro s hs
    cases s with
    | nil => rfl
    | cons a rest =>
      have hw := DecodeRune_width (a :: rest) (by simp)
      have hlen : ((a :: rest).drop (DecodeRune (a :: rest)).2).length ≤ n := by
        rw [List.length_drop]
        simp only [List.length_cons] at hs ⊢
        omega
      simp only [decodeAux, List.flatMap_cons]
      rw [ih _ hlen, List.take_append_drop]

theorem decode_flatMap (s : GoString) : (decode s).flatMap Prod.snd = s :=
  decodeAux_flatMap s.length s (Nat.le_refl _)

/-- What `TrimSpace` does: it removes a run of white-space runes at the
front and one at the back, and what is left neither starts nor ends with
white space. -/
theorem TrimSpace_spec (s : GoString) :
    ∃ pre kept post : List (Nat × GoString),
      decode s = pre ++ kept ++ post ∧
      (∀ p ∈ pre, IsSpace p.1 = true) ∧ (∀ p ∈ post, IsSpace p.1 = true) ∧
      (∀ p, kept.head? = some p → IsSpace p.1 = false) ∧
      (∀ p, kept.getLast? = some p → IsSpace p.1 = false) ∧
      TrimSpace s = kept.flatMap Prod.snd ∧
      s = pre.flatMap Prod.snd ++ TrimSpace s ++ post.flatMap Prod.snd := by
  let f : Nat × GoString → Bool := fun p => IsSpace p.1
  let front := (decode s).dropWhile f
  let kept := (front.reverse.dropWhile f).reverse
  have h1 : decode s = (decode s).takeWhile f ++ front := (List.takeWhile_append_dropWhile f _).symm
  have h2 : front = kept ++ (front.reverse.takeWhile f).reverse := by
    have := List.takeWhile_append_dropWhile f front.reverse
    have h := congrArg List.reverse this
    simp only [List.reverse_append, List.reverse_reverse] at h
    exact h.symm
  have hT : TrimSpace s = kept.flatMap Prod.snd := rfl
  refine ⟨(decode s).takeWhile f, kept, (front.reverse.takeWhile f).reverse, ?_, ?_, ?_, ?_, ?_, hT, ?_⟩
  · rw [List.append_assoc, ← h2]; exact h1
  · intro p hp; exact @List.mem_takeWhile_imp _ f _ p hp
  · intro p hp; exact @List.mem_takeWhile_imp _ f _ p (List.mem_reverse.mp hp)
  · intro p hp
    have hk : kept ≠ [] := by intro h; rw [h] at hp; cases hp
    have hfront : front.head? = some p := by
      rw [h2, List.head?_append_of_ne_nil _ hk]; exact hp
    have := List.head?_dropWhile_not f (decode s)
    rw [show List.dropWhile f (decode s) = front from rfl, hfront] at this
    simpa [f] using this
  · intro p hp
    have hh : (front.reverse.dropWhile f).head? = some p := by
      have := List.getLast?_reverse (front.reverse.dropWhile f)
      rw [← this]; exact hp
    have := List.head?_dropWhile_not f front.reverse
    rw [hh] at this
    simpa [f] using this
  · have hcov := decode_flatMap s
    rw [hT]
    conv_lhs => rw [← hcov, h1, h2]
    simp [List.flatMap_append]

/-! ## Validation -/

/-- The loop of `containsInvalidControl` answers `true` exactly when one of
the runes is a control character other than tab, newline and carriage
return. -/
theorem containsInvalidControlLoop_iff (rs : List Nat) :
    containsInvalidControlLoop rs = true ↔
      ∃ r ∈ rs, (r < 0x20 ∧ r ≠ 9 ∧ r ≠ 10 ∧ r ≠ 13) ∨ r = 0x7f := by
  induction rs with
  | nil => simp [containsInvalidControlLoop]
  | cons r rs ih =>
    unfold containsInvalidControlLoop
    by_cases h1 : r = 10 ∨ r = 13 ∨ r = 9
    · rw [if_pos h1, ih]
      constructor
      · rintro ⟨x, hx, hp⟩
        exact ⟨x, List.mem_cons_of_mem _ hx, hp⟩
      · rintro ⟨x, hx, hp⟩
        rcases List.mem_cons.mp hx with rfl | hx
        · omega
        · exact ⟨x, hx, hp⟩
    · rw [if_neg h1]
      by_cases h2 : r < 0x20 ∨ r = 0x7f
      · rw [if_pos h2]
        simp only [true_iff]
        exact ⟨r, List.mem_cons_self _ _, by omega⟩
      · rw [if_neg h2, ih]
        constructor
        · rintro ⟨x, hx, hp⟩
          exact ⟨x, List.mem_cons_of_mem _ hx, hp⟩
        · rintro ⟨x, hx, hp⟩
          rcases List.mem_cons.mp hx with rfl | hx
          · omega
          · exact ⟨x, hx, hp⟩

/-- C10: `validateFormula` works on the input with surrounding white space
trimmed (`TrimSpace`: leading and trailing white-space runes removed, the
rest kept byte for byte). It returns `ErrEmptyFormula` if the trimmed text
is empty; otherwise `ErrFormulaTooLarge` if it is longer than 5120 bytes; otherwise
`ErrInvalidCharacters` if one of its runes is below `0x20` and not tab,
newline or carriage return, or is `0x7f`; otherwise the trimmed text and no
error. Whenever it returns an error the string it returns is empty. -/
theorem C10_validateFormula_cases (raw : GoString) :
    validateFormula raw =
      (if TrimSpace raw = [] then ([], some FormulaError.ErrEmptyFormula)
       else if 5120 < (TrimSpace raw).length then ([], some FormulaError.ErrFormulaTooLarge)
       else if ∃ r ∈ runes (TrimSpace raw), (r < 0x20 ∧ r ≠ 9 ∧ r ≠ 10 ∧ r ≠ 13) ∨ r = 0x7f
         then ([], some FormulaError.ErrInvalidCharacters)
       else (TrimSpace raw, none)) ∧
    ((validateFormula raw).2 = none ∨ (validateFormula raw).1 = []) ∧
    (∃ pre kept post : List (Nat × GoString),
      decode raw = pre ++ kept ++ post ∧
      (∀ p ∈ pre, IsSpace p.1 = true) ∧ (∀ p ∈ post, IsSpace p.1 = true) ∧
      (∀ p, kept.head? = some p → IsSpace p.1 = false) ∧
      (∀ p, kept.getLast? = some p → IsSpace p.1 = false) ∧
      TrimSpace raw = kept.flatMap Prod.snd ∧
      raw = pre.flatMap Prod.snd ++ TrimSpace raw ++ post.flatMap Prod.snd) := by
  have hmain : validateFormula raw =
      (if TrimSpace raw = [] then ([], some FormulaError.ErrEmptyFormula)
       else if 5120 < (TrimSpace raw).length then ([], some FormulaError.ErrFormulaTooLarge)
       else if ∃ r ∈ runes (TrimSpace raw), (r < 0x20 ∧ r ≠ 9 ∧ r ≠ 10 ∧ r ≠ 13) ∨ r = 0x7f
         then ([], some FormulaError.ErrInvalidCharacters)
       else (TrimSpace raw, none)) := by
    unfold validateFormula
    dsimp only
    by_cases h1 : TrimSpace raw = []
    · rw [if_pos h1, if_pos h1]
    · rw [if_neg h1, if_neg h1]
      by_cases h2 : (TrimSpace raw).length > maxFormulaBytes
      · have h2' : 5120 < (TrimSpace raw).length := by simpa [maxFormulaBytes] using h2
        rw [if_pos h2, if_pos h2']
      · have h2' : ¬ 5120 < (TrimSpace raw).length := by simpa [maxFormulaBytes] using h2
        rw [if_neg h2, if_neg h2']
        by_cases h3 : containsInvalidControl (TrimSpace raw) = true
        · have h3' : ∃ r ∈ runes (TrimSpace raw),
              (r < 0x20 ∧ r ≠ 9 ∧ r ≠ 10 ∧ r ≠ 13) ∨ r = 0x7f :=
            (containsInvalidControlLoop_iff _).mp h3
          rw [if_pos h3, if_pos h3']
        · have h3' : ¬ ∃ r ∈ runes (TrimSpace raw),
              (r < 0x20 ∧ r ≠ 9 ∧ r ≠ 10 ∧ r ≠ 13) ∨ r = 0x7f :=
            fun h => h3 ((containsInvalidControlLoop_iff _).mpr h)
          rw [if_neg h3, if_neg h3']
  refine ⟨hmain, ?_, TrimSpace_spec raw⟩
  rw [hmain]
  split_ifs <;> simp

/-- Test `TestValidateFormula`: surrounding blanks are trimmed. -/
theorem validateFormula_trims :
    validateFormula (utf8 "  E=mc^2  ") = (utf8 "E=mc^2", none) := by decide

/-- Test `TestValidateFormula_Empty`. -/
theorem validateFormula_blank :
    validateFormula (utf8 "   ") = ([], some FormulaError.ErrEmptyFormula) := by decide

/-- Test `TestValidateFormula_InvalidControl`: the input `"abc\x07def"`. -/
theorem validateFormula_bell :
    validateFormula [97, 98, 99, 7, 100, 101, 102]
      = ([], some FormulaError.ErrInvalidCharacters) := by decide

theorem decodeAux_letters (n : Nat) :
    decodeAux n (List.replicate n 97) = List.replicate n (97, [97]) := by
  induction n with
  | zero => rfl
  | succ k ih =>
    have hd : DecodeRune (97 :: List.replicate k 97) = (97, 1) := by simp [DecodeRune]
    simp only [List.replicate_succ, decodeAux, hd]
    simp [ih]

theorem flatMap_letters (n : Nat) :
    (List.replicate n ((97 : Nat), ([97] : GoString))).flatMap Prod.snd
      = List.replicate n 97 := by
  induction n with
  | zero => rfl
  | succ k ih => simp [List.replicate_succ, ih]

theorem TrimSpace_letters (n : Nat) : TrimSpace (List.replicate n 97) = List.replicate n 97 := by
  have hdec : decode (List.replicate n 97) = List.replicate n (97, [97]) := by
    simp [decode, decodeAux_letters]
  have hdrop : ∀ k, (List.replicate k ((97 : Nat), ([97] : GoString))).dropWhile
      (fun p => IsSpace p.1) = List.replicate k (97, [97]) := by
    intro k
    cases k with
    | zero => rfl
    | succ j => simp [List.replicate_succ, List.dropWhile, IsSpace]
  unfold TrimSpace
  simp only [hdec, hdrop, List.reverse_replicate]
  exact flatMap_letters n

/-- Test `TestValidateFormula_TooLarge`: `maxFormulaBytes + 1` letters `a`. -/
theorem validateFormula_too_large :
    validateFormula (List.replicate (maxFormulaBytes + 1) 97)
      = ([], some FormulaError.ErrFormulaTooLarge) := by
  unfold validateFormula
  rw [TrimSpace_letters]
  have h1 : List.replicate (maxFormulaBytes + 1) 97 ≠ [] := by
    simp [List.replicate_succ]
  have h2 : (List.replicate (maxFormulaBytes + 1) 97).length > maxFormulaBytes := by
    rw [List.length_replicate]; exact Nat.lt_succ_self _
  simp only [h1, h2, if_true, if_false]

/-! ## Shutdown -/

/-- What `Close` does, in one equation: the local tier is closed and a
failure of that logged; when the remote tier is enabled and has a client,
the client is closed, a failure of that logged and returned. -/
theorem close_eq {σ : Type} [BigCache σ] (m : Manager σ) (redisClose : Option GoError) :
    m.Close redisClose =
      (if m.redisEnabled && m.redis.isSome then
        ({ m with
            redisOps := m.redisOps ++ [RedisOp.close]
            logger := m.logger ++
              ((BigCache.Close m.localCache).map
                (fun e => ⟨Level.warn, "BigCache 关闭失败", some e⟩)).toList ++
              (redisClose.map (fun e => ⟨Level.warn, "Redis 关闭失败", some e⟩)).toList },
          redisClose)
       else
        ({ m with
            logger := m.logger ++
              ((BigCache.Close m.localCache).map
                (fun e => ⟨Level.warn, "BigCache 关闭失败", some e⟩)).toList },
          none)) := by
  unfold Manager.Close
  cases hc : (m.redisEnabled && m.redis.isSome) <;> cases redisClose <;>
    simp [warnIf_eq, Manager.WarnErr, hc]

/-- C11: `Close` returns a non-nil error exactly when the remote tier is
enabled (flag set, client not nil) and closing the client fails, and the
error is then the one the client returned. Whatever closing the local tier
answers, the result is the same, the client is closed when the remote tier
is enabled (one `close` command, none otherwise), and a local failure shows
up only as a warn entry in the log. -/
theorem C11_close_returns_remote_error {σ : Type} [BigCache σ] (m : Manager σ)
    (redisClose : Option GoError) :
    ((m.Close redisClose).2 ≠ none ↔
      (m.redisEnabled = true ∧ m.redis ≠ none ∧ redisClose ≠ none)) ∧
    (m.Close redisClose).2 =
      (if m.redisEnabled = true ∧ m.redis ≠ none then redisClose else none) ∧
    (m.Close redisClose).1.redisOps =
      m.redisOps ++ (if m.redisEnabled = true ∧ m.redis ≠ none then [RedisOp.close] else []) ∧
    (m.Close redisClose).1.logger =
      m.logger ++
        ((BigCache.Close m.localCache).map
          (fun e => ⟨Level.warn, "BigCache 关闭失败", some e⟩)).toList ++
        (if m.redisEnabled = true ∧ m.redis ≠ none then
          (redisClose.map (fun e => ⟨Level.warn, "Redis 关闭失败", some e⟩)).toList
         else []) := by
  rw [close_eq]
  cases hen : m.redisEnabled <;> cases hr : m.redis <;> cases redisClose <;> simp

/-- A local tier whose `Close` fails: the failure is logged, the Redis client
is closed all the same and its error is the one returned. -/
theorem close_after_local_failure :
    (stuckManager.Close (some "redis: client is closed")).2 = some "redis: client is closed" ∧
    (stuckManager.Close none).2 = none ∧
    (stuckManager.Close none).1.redisOps = [RedisOp.ping, RedisOp.close] ∧
    (stuckManager.Close none).1.logger
      = [aliveLog, ⟨Level.warn, "BigCache 关闭失败", some "close failed"⟩] := by
  decide

/-! ## The placeholder renderer -/

set_option maxRecDepth 100000 in
/-- The SVG of `Stub.Render` with the verbs of its format filled in. -/
theorem Sprintf_stubFormat (viewBox escaped : GoString) (y1 y2 : Int) :
    Sprintf stubFormat [Arg.str viewBox, Arg.int y1, Arg.str escaped, Arg.int y2] =
      utf8 "<svg xmlns=\"http://www.w3.org/2000/svg\" viewBox=\"" ++ (viewBox ++
      (utf8 "\" preserveAspectRatio=\"xMinYMin meet\"><rect width=\"100%\" height=\"100%\" fill=\"#f8fafc\"/><text x=\"20\" y=\"" ++ (itoa y1 ++
      (utf8 "\" font-size=\"20\" font-family=\"monospace\" fill=\"#0f172a\">" ++ (escaped ++
      (utf8 "</text><text x=\"20\" y=\"" ++ (itoa y2 ++
      (utf8 "\" font-size=\"14\" font-family=\"monospace\" fill=\"#64748b\">" ++
      (placeholderNotice ++ utf8 "</text></svg>"))))))))) := by
  rfl

/-- Text without the five HTML-special bytes is left as it is by
`EscapeString`. -/
theorem EscapeString_plain (s : GoString)
    (h : ∀ b ∈ s, b ≠ 38 ∧ b ≠ 39 ∧ b ≠ 60 ∧ b ≠ 62 ∧ b ≠ 34) : EscapeString s = s := by
  induction s with
  | nil => rfl
  | cons a rest ih =>
    have ha := h a (List.mem_cons_self _ _)
    have hrest : EscapeString rest = rest :=
      ih (fun b hb => h b (List.mem_cons_of_mem _ hb))
    have hstep : EscapeString (a :: rest)
        = (if a = 38 then utf8 "&amp;"
           else if a = 39 then utf8 "&#39;"
           else if a = 60 then utf8 "&lt;"
           else if a = 62 then utf8 "&gt;"
           else if a = 34 then utf8 "&#34;"
           else [a]) ++ EscapeString rest := by
      simp [EscapeString, List.flatMap_cons]
    rw [hstep, hrest, if_neg ha.1, if_neg ha.2.1, if_neg ha.2.2.1, if_neg ha.2.2.2.1,
      if_neg ha.2.2.2.2]
    rfl

/-- What `Stub.Render` returns for an input that is not blank. -/
theorem Render_of_nonblank (s : Stub) (tex : GoString) (h : TrimSpace tex ≠ []) :
    s.Render tex =
      (Sprintf stubFormat
        [Arg.str (Sprintf (utf8 "0 0 %d %d")
            [Arg.int (int64 (s.defaultWidth + int64 ((runes (TrimSpace tex)).length * 6))),
             Arg.int s.defaultHeight]),
         Arg.int (s.defaultHeight.tdiv 2), Arg.str (EscapeString (TrimSpace tex)),
         Arg.int (int64 (s.defaultHeight.tdiv 2 + 24))], none) := by
  unfold Stub.Render
  simp only [h, if_false]

theorem infix_append_right {α : Type} (x l r : List α) (h : x <:+: r) : x <:+: l ++ r :=
  h.trans (List.suffix_append l r).isInfix

theorem svgHead_split :
    utf8 "<svg xmlns=\"http://www.w3.org/2000/svg\" viewBox=\""
      = utf8 "<svg" ++ utf8 " xmlns=\"http://www.w3.org/2000/svg\" viewBox=\"" := by
  decide

/-- How `EscapeString` treats the first byte of a text: the entity for one
of the five special bytes, the byte itself otherwise. -/
theorem EscapeString_cons (b : Nat) (rest : GoString) :
    EscapeString (b :: rest) =
      (if b = 38 then utf8 "&amp;"
       else if b = 39 then utf8 "&#39;"
       else if b = 60 then utf8 "&lt;"
       else if b = 62 then utf8 "&gt;"
       else if b = 34 then utf8 "&#34;"
       else [b]) ++ EscapeString rest := by
  simp [EscapeString, List.flatMap_cons]

/-- Escaped text has no raw `<`, `>`, `"` or `'` left in it. -/
theorem EscapeString_no_raw (s : GoString) :
    ∀ b ∈ EscapeString s, b ≠ 60 ∧ b ≠ 62 ∧ b ≠ 34 ∧ b ≠ 39 := by
  induction s with
  | nil => intro b hb; cases hb
  | cons a rest ih =>
    intro b hb
    rw [EscapeString_cons] at hb
    rcases List.mem_append.mp hb with h | h
    · by_cases h1 : a = 38
      · rw [if_pos h1] at h
        have : b ∈ [38, 97, 109, 112, 59] := h
        simp at this; omega
      · rw [if_neg h1] at h
        by_cases h2 : a = 39
        · rw [if_pos h2] at h
          have : b ∈ [38, 35, 51, 57, 59] := h
          simp at this; omega
        · rw [if_neg h2] at h
          by_cases h3 : a = 60
          · rw [if_pos h3] at h
            have : b ∈ [38, 108, 116, 59] := h
            simp at this; omega
          · rw [if_neg h3] at h
            by_cases h4 : a = 62
            · rw [if_pos h4] at h
              have : b ∈ [38, 103, 116, 59] := h
              simp at this; omega
            · rw [if_neg h4] at h
              by_cases h5 : a = 34
              · rw [if_pos h5] at h
                have : b ∈ [38, 35, 51, 52, 59] := h
                simp at this; omega
              · rw [if_neg h5] at h
                simp at h; omega
    · exact ih b h

set_option maxRecDepth 100000 in
/-- The `viewBox` attribute of `Stub.Render` with its verbs filled in. -/
theorem Sprintf_viewBox (w h : Int) :
    Sprintf (utf8 "0 0 %d %d") [Arg.int w, Arg.int h]
      = utf8 "0 0 " ++ (itoa w ++ (utf8 " " ++ itoa h)) := by
  have hraw : Sprintf (utf8 "0 0 %d %d") [Arg.int w, Arg.int h]
      = utf8 "0 0 " ++ (itoa w ++ (utf8 " " ++ (itoa h ++ []))) := rfl
  rw [hraw, List.append_nil]

/-- C12: `Stub.Render` returns an error exactly when the input is empty after
trimming white space, and the string it returns with the error is empty. For
every other input it returns no error and a non-empty string that starts
with `<svg`, contains the placeholder notice and the HTML-escaped trimmed
input, and is the SVG of `stub.go` with that escaped text in its first `text`
element. Trimming removes the leading and the trailing white-space runes and
nothing else. Escaping replaces `&`, `'`, `<`, `>` and `"` by `&amp;`,
`&#39;`, `&lt;`, `&gt;` and `&#34;` and keeps every other byte, so that
`a<b&c` becomes `a&lt;b&amp;c`, no raw `<`, `>`, `"` or `'` is left, and
text without the five bytes is unchanged. -/
theorem C12_stub_render (s : Stub) (tex : GoString) :
    ((s.Render tex).2 ≠ none ↔ TrimSpace tex = []) ∧
    (TrimSpace tex = [] → (s.Render tex).1 = []) ∧
    (TrimSpace tex ≠ [] →
      (s.Render tex).2 = none ∧ (s.Render tex).1 ≠ [] ∧
      utf8 "<svg" <+: (s.Render tex).1 ∧
      placeholderNotice <:+: (s.Render tex).1 ∧
      EscapeString (TrimSpace tex) <:+: (s.Render tex).1) ∧
    ((∀ b ∈ TrimSpace tex, b ≠ 38 ∧ b ≠ 39 ∧ b ≠ 60 ∧ b ≠ 62 ∧ b ≠ 34) →
      EscapeString (TrimSpace tex) = TrimSpace tex) ∧
    (TrimSpace tex ≠ [] →
      (s.Render tex).1 =
        utf8 "<svg xmlns=\"http://www.w3.org/2000/svg\" viewBox=\"0 0 " ++
        (itoa (int64 (s.defaultWidth + int64 ((runes (TrimSpace tex)).length * 6))) ++
        (utf8 " " ++ (itoa s.defaultHeight ++
        (utf8 "\" preserveAspectRatio=\"xMinYMin meet\"><rect width=\"100%\" height=\"100%\" fill=\"#f8fafc\"/><text x=\"20\" y=\"" ++
        (itoa (s.defaultHeight.tdiv 2) ++
        (utf8 "\" font-size=\"20\" font-family=\"monospace\" fill=\"#0f172a\">" ++
        (EscapeString (TrimSpace tex) ++
        (utf8 "</text><text x=\"20\" y=\"" ++
        (itoa (int64 (s.defaultHeight.tdiv 2 + 24)) ++
        utf8 "\" font-size=\"14\" font-family=\"monospace\" fill=\"#64748b\">Rust 渲染引擎开发中，当前为占位结果</text></svg>")))))))))) ∧
    (EscapeString [] = [] ∧
      ∀ (b : Nat) (rest : GoString),
        EscapeString (b :: rest) =
          (if b = 38 then [38, 97, 109, 112, 59]
           else if b = 39 then [38, 35, 51, 57, 59]
           else if b = 60 then [38, 108, 116, 59]
           else if b = 62 then [38, 103, 116, 59]
           else if b = 34 then [38, 35, 51, 52, 59]
           else [b]) ++ EscapeString rest) ∧
    EscapeString (utf8 "a<b&c") = utf8 "a&lt;b&amp;c" ∧
    (∀ b ∈ EscapeString (TrimSpace tex), b ≠ 60 ∧ b ≠ 62 ∧ b ≠ 34 ∧ b ≠ 39) ∧
    (∃ pre kept post : List (Nat × GoString),
      decode tex = pre ++ kept ++ post ∧
      (∀ p ∈ pre, IsSpace p.1 = true) ∧ (∀ p ∈ post, IsSpace p.1 = true) ∧
      (∀ p, kept.head? = some p → IsSpace p.1 = false) ∧
      (∀ p, kept.getLast? = some p → IsSpace p.1 = false) ∧
      TrimSpace tex = kept.flatMap Prod.snd ∧
      tex = pre.flatMap Prod.snd ++ TrimSpace tex ++ post.flatMap Prod.snd) := by
  refine ⟨?_, ?_, ?_, EscapeString_plain _, ?_, ⟨rfl, EscapeString_cons⟩, by decide,
    EscapeString_no_raw _, TrimSpace_spec tex⟩
  · by_cases h : TrimSpace tex = []
    · simp [Stub.Render, h]
    · simp [Render_of_nonblank s tex h, h]
  · intro h
    simp [Stub.Render, h]
  · intro h
    rw [Render_of_nonblank s tex h, Sprintf_stubFormat]
    have hpre : ∀ t : GoString, utf8 "<svg" <+:
        utf8 "<svg xmlns=\"http://www.w3.org/2000/svg\" viewBox=\"" ++ t := by
      intro t
      rw [svgHead_split, List.append_assoc]
      exact List.prefix_append _ _
    refine ⟨rfl, ?_, hpre _, ?_, ?_⟩
    · intro hnil
      dsimp only at hnil
      exact absurd (List.append_eq_nil.mp hnil).1 (by decide)
    · apply infix_append_right; apply infix_append_right; apply infix_append_right
      apply infix_append_right; apply infix_append_right; apply infix_append_right
      apply infix_append_right; apply infix_append_right; apply infix_append_right
      exact List.infix_append' [] _ _
    · apply infix_append_right; apply infix_append_right; apply infix_append_right
      apply infix_append_right; apply infix_append_right
      exact List.infix_append' [] _ _
  · intro h
    rw [Render_of_nonblank s tex h, Sprintf_stubFormat, Sprintf_viewBox]
    have h1 : utf8 "<svg xmlns=\"http://www.w3.org/2000/svg\" viewBox=\"0 0 "
        = utf8 "<svg xmlns=\"http://www.w3.org/2000/svg\" viewBox=\"" ++ utf8 "0 0 " := by
      decide
    have h2 : utf8 "\" font-size=\"14\" font-family=\"monospace\" fill=\"#64748b\">Rust 渲染引擎开发中，当前为占位结果</text></svg>"
        = utf8 "\" font-size=\"14\" font-family=\"monospace\" fill=\"#64748b\">" ++
          (placeholderNotice ++ utf8 "</text></svg>") := by
      decide
    rw [h1, h2]
    simp only [List.append_assoc]

set_option maxRecDepth 100000 in
/-- Test `TestStub_Render`: the SVG for `E=mc^2`, which is not empty and
holds both the notice and the formula. -/
theorem Render_emc2 :
    NewStub.Render (utf8 "E=mc^2") =
      (utf8 "<svg xmlns=\"http://www.w3.org/2000/svg\" viewBox=\"0 0 436 80\" preserveAspectRatio=\"xMinYMin meet\"><rect width=\"100%\" height=\"100%\" fill=\"#f8fafc\"/><text x=\"20\" y=\"40\" font-size=\"20\" font-family=\"monospace\" fill=\"#0f172a\">E=mc^2</text><text x=\"20\" y=\"64\" font-size=\"14\" font-family=\"monospace\" fill=\"#64748b\">Rust 渲染引擎开发中，当前为占位结果</text></svg>",
        none) := by
  decide

/-- Test `TestStub_Render_Empty`: blanks only. -/
theorem Render_blank : NewStub.Render (utf8 "   ") = ([], some "公式内容为空") := by
  decide

/-! ## Start-up with an unreachable Redis -/

/-- The Manager `NewManager` returns when Redis is enabled in the
configuration and the start-up ping fails. -/
theorem NewManager_ping_failed {σ : Type} (cfg : Cache) (logger : List LogEntry) (c : σ)
    (err : GoError) (hcfg : cfg.RedisEnabled = true) :
    NewManager cfg logger (Except.ok c) (some err) =
      Except.ok
        { localCache := c
          redis := none
          redisEnabled := false
          redisTTL := cfg.RedisTTL
          logger := logger ++ [⟨Level.warn, "Redis 无法连接，降级为仅 BigCache", some err⟩]
          hitsLocal := 0
          hitsRedis := 0
          misses := 0
          redisAlive := false
          redisOps := [RedisOp.ping, RedisOp.close] } := by
  simp [NewManager, hcfg, markRedisAlive_eq, Manager.WarnErr, healthLog]

/-- No call replaces the Redis client of a Manager. -/
theorem get_redis {σ : Type} [BigCache σ] (m : Manager σ) (key : GoString)
    (reply : RedisReply) : (m.Get key reply).1.redis = m.redis := by
  cases hg : BigCache.Get m.localCache key with
  | ok data => simp [get_of_local_hit _ key data _ hg]
  | notFound =>
    have hl : ∀ data, BigCache.Get m.localCache key ≠ CacheGet.ok data := by
      intro data h; rw [hg] at h; cases h
    cases hc : (!m.redisEnabled || m.redis.isNone) with
    | true => simp [get_local_only _ key _ hl hc, afterLocalMiss_eq]
    | false =>
      cases reply with
      | value v => simp [get_remote_value _ key v hl hc, afterLocalMiss_eq]
      | nil => simp [get_remote_nil _ key hl hc, afterLocalMiss_eq]
      | fault e => simp [get_remote_fault _ key e hl hc, afterLocalMiss_eq]
  | fault e0 =>
    have hl : ∀ data, BigCache.Get m.localCache key ≠ CacheGet.ok data := by
      intro data h; rw [hg] at h; cases h
    cases hc : (!m.redisEnabled || m.redis.isNone) with
    | true => simp [get_local_only _ key _ hl hc, afterLocalMiss_eq]
    | false =>
      cases reply with
      | value v => simp [get_remote_value _ key v hl hc, afterLocalMiss_eq]
      | nil => simp [get_remote_nil _ key hl hc, afterLocalMiss_eq]
      | fault e => simp [get_remote_fault _ key e hl hc, afterLocalMiss_eq]

theorem run_redis {σ : Type} [BigCache σ] (calls : List Call) :
    ∀ s : System σ, (System.run s calls).1.mgr.redis = s.mgr.redis := by
  induction calls with
  | nil => intro s; rfl
  | cons c cs ih =>
    intro s
    rw [run_cons]
    show (System.run (s.step c).1 cs).1.mgr.redis = s.mgr.redis
    rw [ih]
    cases c with
    | get key reply => exact get_redis s.mgr key reply
    | set key value => simp [System.step, set_eq, warnIf_eq]
    | async i o =>
      simp only [System.step]
      cases s.pending.get? i with
      | none => rfl
      | some w => simp [redisWrite_eq]

/-- C13: when the configuration enables the remote tier and the start-up
ping fails, `NewManager` returns a Manager with `redisEnabled = false`, a
nil client and a dead health flag, having logged the connection warning and
no transition entry. From then on, over every sequence of `Get` and `Set`
calls and scheduler steps, the Manager sends no Redis command, starts no
goroutine, keeps the nil client, and `Stats` reports `RedisEnabled = false`
and `RedisAlive = false`; no transition entry is ever logged. -/
theorem C13_failed_ping_disables_remote {σ : Type} [BigCache σ] (cfg : Cache)
    (logger : List LogEntry) (c : σ) (err : GoError) (hcfg : cfg.RedisEnabled = true) :
    ∃ m : Manager σ,
      NewManager cfg logger (Except.ok c) (some err) = Except.ok m ∧
      m.redisEnabled = false ∧ m.redis = none ∧ m.redisAlive = false ∧
      m.logger = logger ++ [⟨Level.warn, "Redis 无法连接，降级为仅 BigCache", some err⟩] ∧
      m.logger.filter isTransition = logger.filter isTransition ∧
      m.redisOps = [RedisOp.ping, RedisOp.close] ∧
      ∀ calls : List Call,
        (System.run ⟨m, []⟩ calls).1.mgr.redisOps = [RedisOp.ping, RedisOp.close] ∧
        (System.run ⟨m, []⟩ calls).1.pending = [] ∧
        (System.run ⟨m, []⟩ calls).1.mgr.redis = none ∧
        (System.run ⟨m, []⟩ calls).1.mgr.Stats.RedisEnabled = false ∧
        (System.run ⟨m, []⟩ calls).1.mgr.Stats.RedisAlive = false ∧
        (System.run ⟨m, []⟩ calls).1.mgr.logger.filter isTransition
          = logger.filter isTransition := by
  have hlog : (logger ++ [(⟨Level.warn, "Redis 无法连接，降级为仅 BigCache", some err⟩ : LogEntry)]).filter
      isTransition = logger.filter isTransition := by
    simp [List.filter_append, warn_not_transition]
  refine ⟨_, NewManager_ping_failed cfg logger c err hcfg, rfl, rfl, rfl, rfl, hlog, rfl, ?_⟩
  intro calls
  refine ⟨(run_disabled calls _ rfl rfl rfl).2.2.2.1, (run_disabled calls _ rfl rfl rfl).2.2.1,
    run_redis calls _, (run_disabled calls _ rfl rfl rfl).1,
    (run_disabled calls _ rfl rfl rfl).2.1, ?_⟩
  exact ((run_disabled calls _ rfl rfl rfl).2.2.2.2.1).trans hlog

/-- C13, instance: Redis enabled in the configuration, connection refused at
start-up; a later `Set` and `Get` stay local. -/
theorem C13_failed_ping_disables_remote_witness :
    ∃ m : Manager MemCache,
      NewManager ⟨true, 604800⟩ [] (Except.ok (MemCache.empty 1024))
        (some "dial tcp: connection refused") = Except.ok m ∧
      m.redisEnabled = false ∧ m.redis = none ∧ m.redisAlive = false ∧
      (System.run ⟨m, []⟩
        [Call.set (utf8 "k") (utf8 "<svg/>"),
         Call.get (utf8 "k") (RedisReply.value (utf8 "x"))]).1.mgr.redisOps
        = [RedisOp.ping, RedisOp.close] :=
  have h := C13_failed_ping_disables_remote (⟨true, 604800⟩ : Cache) []
    (MemCache.empty 1024) "dial tcp: connection refused" rfl
  match h with
  | ⟨m, hnew, h1, h2, h3, _, _, _, hrun⟩ => ⟨m, hnew, h1, h2, h3, (hrun _).1⟩

end Mathsvg
